import Mathlib

/-!
Shallow embedding of the GMSFS caching filesystem layer (Go package GMSFS).
The cache state (FileCache, FileCacheRD, FileHandles, FileTimers) is modelled
as association lists threaded explicitly through every operation; the real
filesystem is an explicit value consulted through a small adapter model
(spec section 6 treats it as an external collaborator); wall-clock time is an
explicit natural number of seconds. Go string/path library functions are
ported directly (ASCII paths). Diagnostic logging (errorPrinter) and its
asynchronous self-healing goroutine are modelled as no-ops: the spec excludes
diagnostics from the core and the goroutine has no synchronous ordering.
-/

namespace GMSFS

/-- Port of strings.ToLower restricted to ASCII characters. -/
def goToLower (s : String) : String := String.mk (s.toList.map Char.toLower)

/-- Port of strings.HasPrefix: byte-wise prefix test (chars coincide for ASCII). -/
def strStarts (s p : String) : Bool := p.toList.isPrefixOf s.toList

/-- Splits a character list on a separator, mirroring strings.Split. The
structural recursion keeps every path function reducible by the kernel. -/
def splitCharAux (sep : Char) : List Char → List Char → List String
  | [], acc => [String.mk acc.reverse]
  | c :: cs, acc =>
    if c = sep then String.mk acc.reverse :: splitCharAux sep cs []
    else splitCharAux sep cs (c :: acc)

/-- strings.Split of a string on a single separator character. -/
def splitChar (sep : Char) (s : String) : List String := splitCharAux sep s.toList []

/-- The first n characters of a string (byte slicing s[:n] of Go, ASCII). -/
def strTake (s : String) (n : Nat) : String := String.mk (s.toList.take n)

/-- The characters of a string from position n on (Go s[n:], ASCII). -/
def strDrop (s : String) (n : Nat) : String := String.mk (s.toList.drop n)

/-- Port of filepath.SplitList (unix): splits on the list separator character,
a colon, returning the empty list for the empty string. -/
def goSplitList (s : String) : List String :=
  if s = "" then [] else splitChar ':' s

/-- Helper for goClean: processes path components left to right, keeping an
accumulator in reverse order, with Go Clean's handling of "", "." and "..". -/
def cleanComps (rooted : Bool) : List String → List String → List String
  | acc, [] => acc.reverse
  | acc, c :: rest =>
    if c = "" ∨ c = "." then cleanComps rooted acc rest
    else if c = ".." then
      match acc with
      | [] => if rooted then cleanComps rooted [] rest else cleanComps rooted [c] rest
      | a :: tl =>
        if a = ".." then cleanComps rooted (c :: a :: tl) rest
        else cleanComps rooted tl rest
    else cleanComps rooted (c :: acc) rest

/-- Port of filepath.Clean for unix separators. -/
def goClean (path : String) : String :=
  if path = "" then "."
  else
    let rooted := strStarts path ("/")
    let comps := cleanComps rooted [] (splitChar '/' path)
    let s := String.intercalate ("/") comps
    if rooted then "/" ++ s
    else if s = "" then "." else s

/-- Port of filepath.Dir: everything up to and including the final slash,
then cleaned; "." when the path holds no slash. -/
def goDir (path : String) : String :=
  let p := (path.toList.reverse.dropWhile (fun c => c != '/')).reverse
  if p.isEmpty then "." else goClean (String.mk p)

/-- Port of filepath.Base: the last element after stripping trailing slashes;
"." for the empty path, "/" when only separators remain. -/
def goBase (path : String) : String :=
  if path = "" then "."
  else
    let l := path.toList.reverse.dropWhile (fun c => c == '/')
    let b := (l.takeWhile (fun c => c != '/')).reverse
    if b.isEmpty then "/" else String.mk b

/-- Port of filepath.Join for two elements: concatenation with a slash,
cleaned; empty elements are dropped as in Go. -/
def goJoin (a b : String) : String :=
  if a = "" ∧ b = "" then ""
  else if a = "" then goClean b
  else if b = "" then goClean a
  else goClean (a ++ "/" ++ b)

/-- Insertion step for sorting strings by the byte-wise order used by
os.ReadDir and sort.Slice in ReadDir. -/
def insertStr (x : String) : List String → List String
  | [] => [x]
  | y :: tl => if x < y then x :: y :: tl else y :: insertStr x tl

/-- Sorted-by-filename order in which the OS directory enumeration returns
entries (os.ReadDir sorts by name). -/
def sortStrings : List String → List String
  | [] => []
  | x :: tl => insertStr x (sortStrings tl)

/-- Insertion step for the case-insensitive sort used by
updateCacheWithNewFile (sort.Slice comparing lower-cased names). -/
def insertLower (x : String) : List String → List String
  | [] => [x]
  | y :: tl => if goToLower x < goToLower y then x :: y :: tl else y :: insertLower x tl

/-- Case-insensitive sort of a content list, as performed by
updateCacheWithNewFile after appending a new name. -/
def sortLower : List String → List String
  | [] => []
  | x :: tl => insertLower x (sortLower tl)

/-- FileInfo stores comprehensive metadata about a file or directory
(struct FileInfo of the Go source, timestamps in integral seconds). -/
structure FileInfo where
  Exists : Bool := false
  Size : Int := 0
  Mode : Nat := 0
  LastModified : Nat := 0
  IsDir : Bool := false
  Contents : List String := []
  Name : String := ""
  CacheTime : Nat := 0
deriving DecidableEq, Repr

/-- The zero value of the Go FileInfo struct. -/
def FileInfo.zero : FileInfo := {}

/-- Entry of the companion full-listing cache FileCacheRD (struct FileInfoRD). -/
structure FileInfoRD where
  FileInfoRD : List FileInfo := []
  CacheTime : Nat := 0
deriving DecidableEq, Repr

/-- OS-level error kinds the adapter can report (spec section 6). -/
inductive OSErr where
  | notExist
  | permission
  | generic
deriving DecidableEq, Repr

/-- A Go error value: either an OS error propagated from the adapter or a
fresh error built with fmt.Errorf carrying a message. -/
inductive GoError where
  | osErr (e : OSErr)
  | errorf (msg : String)
deriving DecidableEq, Repr

/-- Association-list lookup, modelling cmap Get. -/
def aGet {α : Type} (m : List (String × α)) (k : String) : Option α :=
  (m.find? (fun kv => kv.1 == k)).map (fun kv => kv.2)

/-- Association-list insert/overwrite, modelling cmap Set. -/
def aSet {α : Type} (m : List (String × α)) (k : String) (v : α) : List (String × α) :=
  (k, v) :: m.filter (fun kv => kv.1 != k)

/-- Association-list removal, modelling cmap Remove. -/
def aDel {α : Type} (m : List (String × α)) (k : String) : List (String × α) :=
  m.filter (fun kv => kv.1 != k)

/-- Association-list membership, modelling cmap Has. -/
def aHas {α : Type} (m : List (String × α)) (k : String) : Bool :=
  (aGet m k).isSome

/-- Metadata carried by one filesystem object in the adapter model. -/
structure StatInfo where
  size : Int := 0
  mode : Nat := 0
  modTime : Nat := 0
  isDir : Bool := false
  name : String := ""
deriving DecidableEq, Repr

/-- A node of the modelled filesystem: a plain file or a directory with its
child names. -/
inductive FSNode where
  | file (st : StatInfo)
  | dir (st : StatInfo) (children : List String)
deriving DecidableEq, Repr

/-- The modelled filesystem (spec section 6 FilesystemAdapter): nodes keyed by
cleaned path, resolved case-insensitively to match the layer's case-insensitive
key design; statErr injects non-notExist stat failures; writeFail lists paths
on which data writes fail with a generic I/O error. -/
structure FS where
  nodes : List (String × FSNode) := []
  statErr : List (String × OSErr) := []
  writeFail : List String := []
deriving DecidableEq, Repr

/-- Canonical lookup key of a path in the filesystem model. -/
def fsKey (p : String) : String := goToLower (goClean p)

/-- Node lookup in the filesystem model (case-insensitive, lexical cleaning). -/
def fsFind (fs : FS) (p : String) : Option FSNode :=
  (fs.nodes.find? (fun kv => fsKey kv.1 == fsKey p)).map (fun kv => kv.2)

/-- Stat information of a node. -/
def FSNode.stat : FSNode → StatInfo
  | .file st => st
  | .dir st _ => st

/-- Adapter model of os.Stat. -/
def fsStat (fs : FS) (p : String) : Except OSErr StatInfo :=
  match aGet fs.statErr (fsKey p) with
  | some e => .error e
  | none =>
    match fsFind fs p with
    | none => .error .notExist
    | some n => .ok n.stat

/-- Adapter model of os.ReadDir: the child names of a directory in sorted
order, or the corresponding OS error. -/
def fsChildNames (fs : FS) (p : String) : Except OSErr (List String) :=
  match aGet fs.statErr (fsKey p) with
  | some e => .error e
  | none =>
    match fsFind fs p with
    | none => .error .notExist
    | some (.file _) => .error .generic
    | some (.dir _ children) => .ok (sortStrings children)

/-- Removes a node from the store by key. -/
def fsDelNode (fs : FS) (p : String) : List (String × FSNode) :=
  fs.nodes.filter (fun kv => fsKey kv.1 != fsKey p)

/-- Drops a child name (case-insensitively) from a parent directory node. -/
def fsDropChild (nodes : List (String × FSNode)) (parent base : String) :
    List (String × FSNode) :=
  nodes.map (fun kv =>
    if fsKey kv.1 == fsKey parent then
      match kv.2 with
      | .dir st c => (kv.1, .dir st (c.filter (fun n => goToLower n != goToLower base)))
      | n => (kv.1, n)
    else kv)

/-- Appends a child name to a parent directory node. -/
def fsAddChild (nodes : List (String × FSNode)) (parent base : String) :
    List (String × FSNode) :=
  nodes.map (fun kv =>
    if fsKey kv.1 == fsKey parent then
      match kv.2 with
      | .dir st c => (kv.1, .dir st (c ++ [base]))
      | n => (kv.1, n)
    else kv)

/-- Adapter model of os.Remove: fails on a missing node or a non-empty
directory; otherwise deletes the node and unlinks it from its parent. -/
def fsRemove (fs : FS) (p : String) : Except OSErr FS :=
  match fsFind fs p with
  | none => .error .notExist
  | some (.dir _ (_ :: _)) => .error .generic
  | some _ =>
    let base := goBase (goClean p)
    let parent := goDir (goClean p)
    .ok { fs with nodes := fsDropChild (fsDelNode fs p) parent base }

/-- Go os.O_CREATE flag bit (unix value). -/
def oCREATE : Nat := 64

/-- Go os.O_APPEND flag bit (unix value). -/
def oAPPEND : Nat := 1024

/-- Go os.O_WRONLY flag bit (unix value). -/
def oWRONLY : Nat := 1

/-- Adapter model of os.OpenFile: succeeds on an existing node; with O_CREATE
set it creates a fresh empty file under an existing parent directory;
otherwise it fails with a not-exist error. -/
def fsOpenFile (fs : FS) (p : String) (flag perm now : Nat) : Except OSErr FS :=
  match fsFind fs p with
  | some _ => .ok fs
  | none =>
    if flag.land oCREATE != 0 then
      let cp := goClean p
      let parent := goDir cp
      match fsFind fs parent with
      | some (.dir _ _) =>
        let node := FSNode.file { size := 0, mode := perm, modTime := now, name := goBase cp }
        .ok { fs with nodes := fsAddChild ((cp, node) :: fs.nodes) parent (goBase cp) }
      | _ => .error .notExist
    else .error .notExist

/-- Adapter model of a write on an open handle (File.Write): fails for paths
listed in writeFail, otherwise grows the file and returns the byte count. -/
def fsWrite (fs : FS) (p : String) (n now : Nat) : Except OSErr (FS × Nat) :=
  if fs.writeFail.any (fun q => fsKey q == fsKey p) then .error .generic
  else
    match fsFind fs p with
    | some (.file st) =>
      let node := FSNode.file { st with size := st.size + (n : Int), modTime := now }
      .ok ({ fs with nodes := aSet (fsDelNode fs p) (goClean p) node }, n)
    | _ => .error .generic

/-- Adapter model of os.WriteFile: create-or-truncate then write; fails for
writeFail paths or a missing parent directory. -/
def fsWriteFile (fs : FS) (p : String) (content perm now : Nat) : Except OSErr FS :=
  if fs.writeFail.any (fun q => fsKey q == fsKey p) then .error .generic
  else
    let cp := goClean p
    match fsFind fs p with
    | some (.file st) =>
      let node := FSNode.file { st with size := (content : Int), modTime := now }
      .ok { fs with nodes := aSet (fsDelNode fs p) cp node }
    | some (.dir _ _) => .error .generic
    | none =>
      let parent := goDir cp
      match fsFind fs parent with
      | some (.dir _ _) =>
        let node := FSNode.file { size := (content : Int), mode := perm, modTime := now, name := goBase cp }
        .ok { fs with nodes := fsAddChild ((cp, node) :: fs.nodes) parent (goBase cp) }
      | _ => .error .notExist

/-- All suffixes of a list, longest first. -/
def tailsOf {α : Type} : List α → List (List α)
  | [] => [[]]
  | a :: t => (a :: t) :: tailsOf t

/-- Simple glob matcher over character lists: star matches any run, the
question mark one character. Models filepath.Match, whose full syntax the
spec places out of scope (section 1); bracket classes are not modelled. The
recursion is structural on the pattern, star trying every suffix of the
name, so matching is kernel-reducible. -/
def goMatchL : List Char → List Char → Bool
  | [], n => n.isEmpty
  | '*' :: ps, n => (tailsOf n).any (fun t => goMatchL ps t)
  | '?' :: _, [] => false
  | '?' :: ps, _ :: t => goMatchL ps t
  | c :: ps, n =>
    match n with
    | [] => false
    | a :: t => c == a && goMatchL ps t

/-- Glob matching on strings (model of filepath.Match restricted to the star
and question-mark wildcards; such patterns never report a syntax error). -/
def goMatch (pat s : String) : Bool := goMatchL pat.toList s.toList

/-- Model of filepath.Glob: every stored path matching the pattern, in
sorted order. -/
def fsGlob (fs : FS) (pat : String) : List String :=
  sortStrings ((fs.nodes.map (fun kv => goClean kv.1)).filter (fun p => goMatch pat p))

/-- Walks the path components for fsMkdirAll, creating missing directories. -/
def fsMkdirParts (perm now : Nat) : FS → String → List String → Except OSErr FS
  | fs, _, [] => .ok fs
  | fs, pre, c :: rest =>
    if c = "" then fsMkdirParts perm now fs pre rest
    else
      let cur := goJoin pre c
      match fsFind fs cur with
      | some (.dir _ _) => fsMkdirParts perm now fs cur rest
      | some (.file _) => .error .generic
      | none =>
        let node := FSNode.dir { size := 0, mode := perm, modTime := now, name := goBase cur } []
        let fs1 : FS := { fs with nodes := fsAddChild ((cur, node) :: fs.nodes) (goDir cur) (goBase cur) }
        fsMkdirParts perm now fs1 cur rest

/-- Adapter model of os.MkdirAll. -/
def fsMkdirAll (fs : FS) (p : String) (perm now : Nat) : Except OSErr FS :=
  let cp := goClean p
  let start := if strStarts cp ("/") then "/" else ""
  fsMkdirParts perm now fs start (splitChar '/' cp)

/-- Adapter model of the open/create/copy/sync/stat/chmod call sequence inside
CopyFile, collapsed into one step returning the first OS error encountered. -/
def fsCopyFile (fs : FS) (src dst : String) (now : Nat) : Except OSErr FS :=
  match fsStat fs src with
  | .error e => .error e
  | .ok s =>
    if s.isDir then .error .generic
    else if fs.writeFail.any (fun q => fsKey q == fsKey dst) then .error .generic
    else
      let cd := goClean dst
      let node := FSNode.file { size := s.size, mode := s.mode, modTime := now, name := goBase cd }
      match fsFind fs cd with
      | some (.file _) => .ok { fs with nodes := aSet (fsDelNode fs dst) cd node }
      | some (.dir _ _) => .error .generic
      | none =>
        match fsFind fs (goDir cd) with
        | some (.dir _ _) =>
          .ok { fs with nodes := fsAddChild ((cd, node) :: fs.nodes) (goDir cd) (goBase cd) }
        | _ => .error .notExist

/-- Scope configuration: the CacheRoot and MaxCacheDepth package variables. -/
structure Config where
  cacheRoot : String := "/autoupdate"
  maxCacheDepth : Nat := 3
deriving DecidableEq, Repr

/-- The package defaults: CacheRoot "/autoupdate", MaxCacheDepth 3. -/
def defaultConfig : Config := {}

/-- Port of inCacheScope: note it computes depth with filepath.SplitList,
which splits on the list separator colon, and demands the path be strictly
longer than the root before the case-insensitive prefix comparison. -/
def inCacheScope (cfg : Config) (a : String) : Bool :=
  let depth := goSplitList a
  if a.length > cfg.cacheRoot.length then
    if depth.length ≤ cfg.maxCacheDepth + 1 ∧
        goToLower (strTake a cfg.cacheRoot.length) = goToLower cfg.cacheRoot then
      true
    else false
  else false

/-- Modelled from the spec: inScope(path, root, maxDepth) of section 4.1 —
true iff root is a case-insensitive prefix of path and the number of path
segments from root down to path does not exceed maxDepth. -/
def inScopeSpec (path root : String) (maxDepth : Nat) : Bool :=
  strStarts (goToLower path) (goToLower root) &&
    decide (((splitChar '/' (strDrop path root.length)).filter (fun c => c != "")).length ≤ maxDepth)

/-- The four package-level concurrent maps, threaded as explicit state:
FileCache, FileCacheRD, FileHandles (keys of open handles) and FileTimers
(armed idle timers as absolute deadlines in seconds). -/
structure CacheState where
  fileCache : List (String × FileInfo) := []
  fileCacheRD : List (String × FileInfoRD) := []
  fileHandles : List String := []
  fileTimers : List (String × Nat) := []
deriving DecidableEq, Repr

/-- The body of Stat's filesystem path given the refresh helper to use for
directories: os.Stat, record construction, scope-gated insert and directory
refresh (the portion of Stat after the cache check). -/
def statMissBody (cfg : Config) (fs : FS) (now : Nat)
    (udc : CacheState → String → CacheState)
    (st : CacheState) (name lowerCaseName : String) :
    (FileInfo × Option GoError) × CacheState :=
  match fsStat fs name with
  | .error e => ((FileInfo.zero, some (.osErr e)), st)
  | .ok s =>
    let info : FileInfo :=
      { Exists := true, Size := s.size, Mode := s.mode, LastModified := s.modTime,
        IsDir := s.isDir, Name := goBase name, CacheTime := now }
    if inCacheScope cfg lowerCaseName then
      let st1 : CacheState := { st with fileCache := aSet st.fileCache lowerCaseName info }
      if info.IsDir then ((info, none), udc st1 name)
      else ((info, none), st1)
    else ((info, none), st)

/-- The body of Stat given the miss path to use: the scope-gated cache fast
path, evicting records with an empty Name. -/
def statBody (cfg : Config)
    (miss : CacheState → String → String → (FileInfo × Option GoError) × CacheState)
    (st : CacheState) (name : String) : (FileInfo × Option GoError) × CacheState :=
  let lowerCaseName := goToLower (goClean name)
  let cached := if inCacheScope cfg lowerCaseName then aGet st.fileCache lowerCaseName else none
  match cached with
  | some fi =>
    if fi.Name = "" then
      let st1 : CacheState := { st with fileCache := aDel st.fileCache lowerCaseName }
      miss st1 name lowerCaseName
    else ((fi, none), st)
  | none => miss st name lowerCaseName

/-- The body of UpdateDirectoryContents given the Stat to use: drop the
companion listing entry, then, only in scope, re-enumerate the directory
from the filesystem and store a fresh directory record (with an unset
CacheTime, as in the source). -/
def udcBody (cfg : Config) (fs : FS)
    (stat : CacheState → String → (FileInfo × Option GoError) × CacheState)
    (st : CacheState) (dirName0 : String) : CacheState :=
  let dirName := goClean dirName0
  let lowerCaseDirName := goToLower dirName
  let st1 : CacheState := { st with fileCacheRD := aDel st.fileCacheRD lowerCaseDirName }
  if inCacheScope cfg lowerCaseDirName = false then st1
  else
    match fsChildNames fs dirName with
    | .error _ => st1
    | .ok contents =>
      match stat st1 dirName with
      | ((_, some _), st2) => st2
      | ((dstat, none), st2) =>
        let dirInfo : FileInfo :=
          { Exists := true, IsDir := true, Name := goBase dirName, Contents := contents,
            LastModified := dstat.LastModified, Mode := dstat.Mode }
        { st2 with fileCache := aSet st2.fileCache lowerCaseDirName dirInfo }

/-- The Stat and UpdateDirectoryContents pair, tied together by structural
recursion on fuel so that every call is kernel-reducible; fuel zero is an
unreachable artifact (the real recursion always bottoms out in a cache hit). -/
def statUdc (cfg : Config) (fs : FS) (now : Nat) :
    Nat → (CacheState → String → (FileInfo × Option GoError) × CacheState) ×
      (CacheState → String → CacheState)
  | 0 => (fun st _ => ((FileInfo.zero, some (.osErr .generic)), st), fun st _ => st)
  | fuel + 1 =>
    let prev := statUdc cfg fs now fuel
    (statBody cfg (statMissBody cfg fs now prev.2),
     udcBody cfg fs (statBody cfg (statMissBody cfg fs now prev.2)))

/-- Port of Stat: scope-gated cache fast path (evicting records with an empty
Name), falling back to os.Stat, then a scope-gated cache insert with a
directory-contents refresh; fuel bounds the Stat/refresh cycle. -/
def Stat (cfg : Config) (fs : FS) (now fuel : Nat) (st : CacheState) (name : String) :
    (FileInfo × Option GoError) × CacheState :=
  (statUdc cfg fs now fuel).1 st name

/-- Port of UpdateDirectoryContents: drops the companion listing-cache entry,
then, only in scope, re-enumerates the directory from the filesystem and
stores a fresh directory record. -/
def UpdateDirectoryContents (cfg : Config) (fs : FS) (now fuel : Nat) (st : CacheState)
    (dirName0 : String) : CacheState :=
  (statUdc cfg fs now fuel).2 st dirName0

/-- The portion of Stat after the cache check, refreshing directories at the
given fuel. -/
def statMiss (cfg : Config) (fs : FS) (now fuel : Nat) (st : CacheState)
    (name lowerCaseName : String) : (FileInfo × Option GoError) × CacheState :=
  statMissBody cfg fs now (UpdateDirectoryContents cfg fs now fuel) st name lowerCaseName

/-- The entry.Info() pass of ReadDir: metadata for each listed child, failing
with the first child whose info is unavailable. -/
def entryInfos (fs : FS) (dirName : String) : List String → Except OSErr (List FileInfo)
  | [] => .ok []
  | n :: tl =>
    match fsStat fs (goJoin dirName n) with
    | .error e => .error e
    | .ok s =>
      match entryInfos fs dirName tl with
      | .error e => .error e
      | .ok r =>
        .ok ({ Exists := true, Size := s.size, Mode := s.mode, LastModified := s.modTime,
               IsDir := s.isDir, Name := n } :: r)

/-- The filesystem path of ReadDir: enumerate, build the per-entry records,
store the listing in FileCacheRD unconditionally, and store a fresh directory
record in FileCache only when the raw path passes the scope check. -/
def readDirDisk (cfg : Config) (fs : FS) (now : Nat) (st : CacheState)
    (dirName lowerCaseDirName : String) : Except GoError (List FileInfo) × CacheState :=
  match fsChildNames fs dirName with
  | .error e => (.error (.osErr e), st)
  | .ok names =>
    match entryInfos fs dirName names with
    | .error e => (.error (.osErr e), st)
    | .ok infos =>
      let rds : FileInfoRD := { FileInfoRD := infos, CacheTime := now }
      let st1 : CacheState := { st with fileCacheRD := aSet st.fileCacheRD lowerCaseDirName rds }
      if inCacheScope cfg dirName then
        let dirInfo : FileInfo :=
          { Exists := true, IsDir := true, Contents := names, Name := goBase dirName,
            CacheTime := now }
        (.ok infos, { st1 with fileCache := aSet st1.fileCache lowerCaseDirName dirInfo })
      else (.ok infos, st1)

/-- Port of ReadDir: serves the companion FileCacheRD listing when present and
the raw path is in scope (unless the FileCache record is newer, which evicts
the listing), otherwise re-derives from the filesystem via readDirDisk. -/
def ReadDir (cfg : Config) (fs : FS) (now : Nat) (st : CacheState) (dirName : String) :
    Except GoError (List FileInfo) × CacheState :=
  let lowerCaseDirName := goToLower (goClean dirName)
  match aGet st.fileCacheRD lowerCaseDirName with
  | some rd =>
    if inCacheScope cfg dirName then
      match aGet st.fileCache lowerCaseDirName with
      | some fc =>
        if fc.CacheTime - rd.CacheTime > 0 then
          readDirDisk cfg fs now
            { st with fileCacheRD := aDel st.fileCacheRD lowerCaseDirName }
            dirName lowerCaseDirName
        else (.ok rd.FileInfoRD, st)
      | none => (.ok rd.FileInfoRD, st)
    else readDirDisk cfg fs now st dirName lowerCaseDirName
  | none => readDirDisk cfg fs now st dirName lowerCaseDirName

/-- Port of ListFS: Stat the path, refresh empty contents, then rebuild the
name list from ReadDir, prefixing directories with a star. -/
def ListFS (cfg : Config) (fs : FS) (now fuel : Nat) (st : CacheState) (path : String) :
    List String × CacheState :=
  let lowerCasePath := goToLower (goClean path)
  match Stat cfg fs now fuel st path with
  | ((_, some _), st1) => ([], st1)
  | ((fileInfo, none), st1) =>
    if fileInfo.IsDir = false then ([], st1)
    else
      let st2 :=
        if fileInfo.Contents.length = 0 then UpdateDirectoryContents cfg fs now fuel st1 path
        else st1
      match ReadDir cfg fs now st2 lowerCasePath with
      | (.error _, st3) => ([], st3)
      | (.ok objs, st3) =>
        (objs.map (fun fi => if fi.IsDir then "*" ++ fi.Name else fi.Name), st3)

/-- Port of UpdateFileInfo: scope-gated refresh of one record from os.Stat,
installing a negative record when the object does not exist, and pulling
directory contents through ListFS and UpdateDirectoryContents for dirs. -/
def UpdateFileInfo (cfg : Config) (fs : FS) (now fuel : Nat) (st : CacheState) (name : String) :
    CacheState :=
  let lowerCaseName := goToLower (goClean name)
  if inCacheScope cfg lowerCaseName = false then st
  else
    match fsStat fs name with
    | .error .notExist =>
      { st with fileCache := aSet st.fileCache lowerCaseName { Exists := false, CacheTime := now } }
    | .error _ => st
    | .ok s =>
      let cs := if s.isDir then ListFS cfg fs now fuel st name else ([], st)
      let info : FileInfo :=
        { Exists := true, Size := s.size, Mode := s.mode, LastModified := s.modTime,
          IsDir := s.isDir, Name := s.name, CacheTime := now, Contents := cs.1 }
      let st2 : CacheState := { cs.2 with fileCache := aSet cs.2.fileCache lowerCaseName info }
      if info.IsDir then UpdateDirectoryContents cfg fs now fuel st2 name else st2

/-- Port of UpdateFileInfoWithSize: bump the cached size and modification
time in scope, or fall back to a full UpdateFileInfo on a cache miss. -/
def UpdateFileInfoWithSize (cfg : Config) (fs : FS) (now fuel : Nat) (st : CacheState)
    (name : String) (sizeIncrement : Int) : CacheState :=
  let lowerCaseName := goToLower (goClean name)
  match aGet st.fileCache lowerCaseName with
  | some fileInfo =>
    if inCacheScope cfg lowerCaseName then
      let updated : FileInfo :=
        { fileInfo with Size := fileInfo.Size + sizeIncrement, LastModified := now }
      { st with fileCache := aSet st.fileCache lowerCaseName updated }
    else st
  | none => UpdateFileInfo cfg fs now fuel st name

/-- The file.Stat-and-record step of the CloseFile loop: on a successful stat
of the handle's path, record its final size via UpdateFileInfoWithSize; a
failed stat is ignored. -/
def closeStatSize (cfg : Config) (fs : FS) (now fuel : Nat) (st : CacheState) (key : String) :
    CacheState :=
  match fsStat fs key with
  | .ok s => UpdateFileInfoWithSize cfg fs now fuel st key s.size
  | .error _ => st

/-- The timer.Stop-and-Remove step of the CloseFile loop. -/
def dropTimer (st : CacheState) (key : String) : CacheState :=
  match aGet st.fileTimers key with
  | some _ => { st with fileTimers := aDel st.fileTimers key }
  | none => st

/-- One iteration of the CloseFile loop body for a snapshot key: when the key
has the lowered cleaned name as a prefix, record the handle's final size in
the cache, drop the handle, and stop and drop its timer. -/
def closeFileStep (cfg : Config) (fs : FS) (now fuel : Nat) (lowerCaseName : String)
    (st : CacheState) (key : String) : CacheState :=
  if strStarts key lowerCaseName then
    let st1 :=
      if st.fileHandles.contains key then
        let st0 := closeStatSize cfg fs now fuel st key
        { st0 with fileHandles := st0.fileHandles.filter (fun h => h != key) }
      else st
    dropTimer st1 key
  else st

/-- Port of CloseFile: sweeps every registered handle whose key has the
lowered cleaned name as a string prefix, closing it and removing its timer. -/
def CloseFile (cfg : Config) (fs : FS) (now fuel : Nat) (st : CacheState) (name : String) :
    CacheState :=
  let lowerCaseName := goToLower (goClean name)
  st.fileHandles.foldl (closeFileStep cfg fs now fuel lowerCaseName) st

/-- Port of resetTimer: arm (or re-arm) the idle timer of a key for two
minutes, held as an absolute deadline now plus 120 seconds. -/
def resetTimer (now : Nat) (st : CacheState) (name : String) : CacheState :=
  let lowerCaseName := goToLower (goClean name)
  match aGet st.fileTimers lowerCaseName with
  | some _ => { st with fileTimers := aSet st.fileTimers lowerCaseName (now + 120) }
  | none => { st with fileTimers := aSet st.fileTimers lowerCaseName (now + 120) }

/-- The idle-timer expiry event: once the armed deadline of a key has been
reached, the runtime callback invokes CloseFile on that key (time.AfterFunc
inside resetTimer). -/
def timerFire (cfg : Config) (fs : FS) (now fuel : Nat) (st : CacheState) (k : String) :
    CacheState :=
  match aGet st.fileTimers k with
  | some d => if d ≤ now then CloseFile cfg fs now fuel st k else st
  | none => st

/-- Port of OpenFile: close existing handles under the key first, open on the
filesystem, register the handle and arm its timer, and refresh the cache when
O_CREATE was requested. -/
def OpenFile (cfg : Config) (fs : FS) (now fuel : Nat) (st : CacheState)
    (name : String) (flag perm : Nat) : Option GoError × CacheState × FS :=
  let lowerCaseName := goToLower (goClean name)
  let st1 := CloseFile cfg fs now fuel st lowerCaseName
  match fsOpenFile fs name flag perm now with
  | .error e => (some (.osErr e), st1, fs)
  | .ok fs1 =>
    let st2 : CacheState :=
      { st1 with fileHandles := lowerCaseName :: st1.fileHandles.filter (fun h => h != lowerCaseName) }
    let st3 := resetTimer now st2 lowerCaseName
    if flag.land oCREATE != 0 then
      let st4 := UpdateFileInfo cfg fs1 now fuel st3 name
      (none, UpdateDirectoryContents cfg fs1 now fuel st4 (goDir name), fs1)
    else (none, st3, fs1)

/-- Port of Append: reuse a registered handle or open (creating) the file and
register one, write, and only on success reset the idle timer and refresh the
cached record; the content is abstracted to its byte count. -/
def Append (cfg : Config) (fs : FS) (now fuel : Nat) (st : CacheState)
    (name : String) (content : Nat) : Option GoError × CacheState × FS :=
  let lowerCaseName := goToLower (goClean name)
  let hasHandle := st.fileHandles.contains lowerCaseName
  let opened : Except OSErr FS :=
    if hasHandle then .ok fs
    else fsOpenFile fs name (oAPPEND.lor (oWRONLY.lor oCREATE)) 420 now
  match opened with
  | .error e => (some (.osErr e), st, fs)
  | .ok fs1 =>
    let st1 : CacheState :=
      if hasHandle then st
      else { st with fileHandles := lowerCaseName :: st.fileHandles.filter (fun h => h != lowerCaseName) }
    match fsWrite fs1 name content now with
    | .error e => (some (.osErr e), st1, fs1)
    | .ok (fs2, written) =>
      let st2 := resetTimer now st1 lowerCaseName
      let st3 :=
        if aHas st2.fileCache lowerCaseName = false then UpdateFileInfo cfg fs2 now fuel st2 name
        else st2
      (none, UpdateFileInfoWithSize cfg fs2 now fuel st3 lowerCaseName (written : Int), fs2)

/-- Port of WriteFile: close handles, write, and refresh both the record and
the parent directory contents before the error (if any) is returned. -/
def WriteFile (cfg : Config) (fs : FS) (now fuel : Nat) (st : CacheState)
    (name0 : String) (content perm : Nat) : Option GoError × CacheState × FS :=
  let name := goClean name0
  let lowerCaseName := goToLower name
  let st1 := CloseFile cfg fs now fuel st lowerCaseName
  let r :=
    match fsWriteFile fs name content perm now with
    | .error e => ((some (GoError.osErr e) : Option GoError), fs)
    | .ok f => (none, f)
  let st2 := UpdateFileInfo cfg r.2 now fuel st1 name
  let st3 := UpdateDirectoryContents cfg r.2 now fuel st2 (goDir lowerCaseName)
  (r.1, st3, r.2)

/-- Port of Delete: close handles, os.Remove, then drop the record and refresh
the (lower-cased) parent directory contents. -/
def Delete (cfg : Config) (fs : FS) (now fuel : Nat) (st : CacheState) (name : String) :
    Option GoError × CacheState × FS :=
  let lowerCaseName := goToLower (goClean name)
  let st1 := CloseFile cfg fs now fuel st lowerCaseName
  match fsRemove fs name with
  | .error e => (some (.osErr e), st1, fs)
  | .ok fs1 =>
    let st2 : CacheState := { st1 with fileCache := aDel st1.fileCache lowerCaseName }
    (none, UpdateDirectoryContents cfg fs1 now fuel st2 (goDir lowerCaseName), fs1)

/-- Port of FileExists: answer from the cache unconditionally on a hit;
otherwise Stat, installing a scope-gated negative record on not-exist and
refreshing the record on success. -/
def FileExists (cfg : Config) (fs : FS) (now fuel : Nat) (st : CacheState) (name : String) :
    Bool × CacheState :=
  let lowerCaseName := goToLower (goClean name)
  match aGet st.fileCache lowerCaseName with
  | some fileInfo => (fileInfo.Exists, st)
  | none =>
    match Stat cfg fs now fuel st name with
    | ((_, some (.osErr .notExist)), st1) =>
      let st2 :=
        if inCacheScope cfg lowerCaseName then
          { st1 with fileCache := aSet st1.fileCache lowerCaseName { Exists := false, CacheTime := now } }
        else st1
      (false, st2)
    | ((_, none), st1) => (true, UpdateFileInfo cfg fs now fuel st1 lowerCaseName)
    | ((_, some _), st1) => (false, st1)

/-- Port of CachedGlob: match the lowered pattern against the lowered Name of
every cached record, returning the stored names (the modelled matcher is
total, so the error branch of filepath.Match cannot fire). -/
def CachedGlob (st : CacheState) (pat : String) : Except GoError (List String) :=
  let lowerCasePattern := goToLower pat
  .ok ((st.fileCache.filter (fun kv => goMatch lowerCasePattern (goToLower kv.2.Name))).map
        (fun kv => kv.2.Name))

/-- Port of Glob: cached matches first, else filepath.Glob over the real
filesystem with a cache refresh for every match. -/
def Glob (cfg : Config) (fs : FS) (now fuel : Nat) (st : CacheState) (pat : String) :
    Except GoError (List String) × CacheState :=
  match CachedGlob st pat with
  | .error e => (.error e, st)
  | .ok cachedMatches =>
    if cachedMatches.length = 0 then
      let ms := fsGlob fs pat
      (.ok ms, ms.foldl (fun s obj => UpdateFileInfo cfg fs now fuel s obj) st)
    else (.ok cachedMatches, st)

/-- Port of CopyFile: close handles on both endpoints, run the adapter copy
sequence (whose OS errors are returned verbatim), then refresh the
destination's parent directory contents. -/
def CopyFile (cfg : Config) (fs : FS) (now fuel : Nat) (st : CacheState) (src0 dst0 : String) :
    Option GoError × CacheState × FS :=
  let src := goClean src0
  let dst := goClean dst0
  let st1 := CloseFile cfg fs now fuel st src
  let st2 := CloseFile cfg fs now fuel st1 dst
  match fsCopyFile fs src dst now with
  | .error e => (some (.osErr e), st2, fs)
  | .ok fs1 => (none, UpdateDirectoryContents cfg fs1 now fuel st2 (goDir dst), fs1)

/-- Port of MkdirAll: a FileExists short-circuit, then os.MkdirAll and two
directory-contents refreshes. -/
def MkdirAll (cfg : Config) (fs : FS) (now fuel : Nat) (st : CacheState)
    (path0 : String) (perm : Nat) : Option GoError × CacheState × FS :=
  let path := goClean path0
  let r := FileExists cfg fs now fuel st path
  if r.1 then (none, r.2, fs)
  else
    match fsMkdirAll fs path perm now with
    | .error e => (some (.osErr e), r.2, fs)
    | .ok fs1 =>
      let st2 := UpdateDirectoryContents cfg fs1 now fuel r.2 path
      (none, UpdateDirectoryContents cfg fs1 now fuel st2 (goDir path), fs1)

/-- The per-match copy loop of CopyDirFilesGlob, stopping at the first
failing CopyFile. -/
def copyGlobLoop (cfg : Config) (now fuel : Nat) (dst : String) :
    CacheState → FS → List String → Option GoError × CacheState × FS
  | st, fs, [] => (none, st, fs)
  | st, fs, item :: tl =>
    let itemBaseName := goBase item
    match CopyFile cfg fs now fuel st item (goJoin dst itemBaseName) with
    | (some e, st1, fs1) => (some e, st1, fs1)
    | (none, st1, fs1) => copyGlobLoop cfg now fuel dst st1 fs1 tl

/-- Port of CopyDirFilesGlob: note that a failing Stat on the source is
reported as the fresh error "source is not a directory or does not exist"
rather than the underlying OS error. -/
def CopyDirFilesGlob (cfg : Config) (fs : FS) (now fuel : Nat) (st : CacheState)
    (src0 dst0 fileMatch : String) : Option GoError × CacheState × FS :=
  let src := goClean src0
  let dst := goClean dst0
  match Stat cfg fs now fuel st src with
  | ((_, some _), st1) =>
    (some (.errorf ("source is not a directory or does not exist")), st1, fs)
  | ((srcInfo, none), st1) =>
    if srcInfo.IsDir = false then
      (some (.errorf ("source is not a directory or does not exist")), st1, fs)
    else
      let r := FileExists cfg fs now fuel st1 dst
      let mk :=
        if r.1 = false then MkdirAll cfg fs now fuel r.2 dst srcInfo.Mode
        else (none, r.2, fs)
      match mk with
      | (some e, st2, fs2) => (some e, st2, fs2)
      | (none, st2, fs2) =>
        match Glob cfg fs2 now fuel st2 (src ++ "/" ++ fileMatch) with
        | (.error e, st3) => (some e, st3, fs2)
        | (.ok found, st3) => copyGlobLoop cfg now fuel dst st3 fs2 found

/-- Go os.ModeSymlink bit. -/
def modeSymlink : Nat := 134217728

mutual

/-- Port of CopyDir (recursive over the directory tree, fuel-bounded): every
error from Stat, MkdirAll, ReadDir, a nested CopyDir or CopyFile is returned
verbatim; only the not-a-directory and destination-exists conditions build
fresh errors. -/
def CopyDir (cfg : Config) (now : Nat) :
    Nat → CacheState → FS → String → String → Option GoError × CacheState × FS
  | 0, st, fs, _, _ => (some (.errorf ("fuel exhausted")), st, fs)
  | fuel + 1, st, fs, src0, dst0 =>
    let src := goClean src0
    let dst := goClean dst0
    let st1 :=
      if aHas st.fileCache (goToLower src) = false then
        (ListFS cfg fs now fuel st (goToLower src)).2
      else st
    match Stat cfg fs now fuel st1 src with
    | ((_, some e), st2) => (some e, st2, fs)
    | ((si, none), st2) =>
      if si.IsDir = false then (some (.errorf ("source is not a directory")), st2, fs)
      else
        let r := FileExists cfg fs now fuel st2 dst
        if r.1 then (some (.errorf ("destination already exists")), r.2, fs)
        else
          match MkdirAll cfg fs now fuel r.2 dst si.Mode with
          | (some e, st3, fs3) => (some e, st3, fs3)
          | (none, st3, fs3) =>
            let st4 := UpdateFileInfo cfg fs3 now fuel st3 dst
            match ReadDir cfg fs3 now st4 src with
            | (.error e, st5) => (some e, st5, fs3)
            | (.ok entries, st5) => copyDirEnts cfg now fuel st5 fs3 src dst entries

/-- The entry loop of CopyDir: recurse into subdirectories, copy files,
skip symlinks, refreshing the destination contents after each step. -/
def copyDirEnts (cfg : Config) (now : Nat) :
    Nat → CacheState → FS → String → String → List FileInfo → Option GoError × CacheState × FS
  | _, st, fs, _, _, [] => (none, st, fs)
  | 0, st, fs, _, _, _ :: _ => (some (.errorf ("fuel exhausted")), st, fs)
  | fuel + 1, st, fs, src, dst, entry :: tl =>
    let srcPath := goJoin src entry.Name
    let dstPath := goJoin dst entry.Name
    if entry.IsDir then
      match CopyDir cfg now fuel st fs srcPath dstPath with
      | (some e, st1, fs1) => (some e, st1, fs1)
      | (none, st1, fs1) =>
        let st2 := UpdateDirectoryContents cfg fs1 now fuel st1 dstPath
        copyDirEnts cfg now fuel st2 fs1 src dst tl
    else
      if entry.Mode.land modeSymlink != 0 then copyDirEnts cfg now fuel st fs src dst tl
      else
        match CopyFile cfg fs now fuel st srcPath dstPath with
        | (some e, st1, fs1) => (some e, st1, fs1)
        | (none, st1, fs1) =>
          let st2 := UpdateDirectoryContents cfg fs1 now fuel st1 dstPath
          copyDirEnts cfg now fuel st2 fs1 src dst tl

end

/-- One item of the loopCache tick body: the negative-entry sweep (records
with Exists false older than 300 seconds are evicted), then, for in-scope
directory records, the structural audit (forcing ListFS when a listed child
has no cache entry) and, on every twentieth tick, the filesystem cross-check
diffing the cached child list against a fresh enumeration. -/
def loopCacheItem (cfg : Config) (fs : FS) (now fuel lc : Nat) (st : CacheState)
    (ab : String × FileInfo) : CacheState :=
  let a := goClean ab.1
  let b := ab.2
  let st1 :=
    if b.Exists = false then
      if now - b.CacheTime > 300 then { st with fileCache := aDel st.fileCache a } else st
    else st
  if b.IsDir then
    if inCacheScope cfg a then
      let fl := b.Contents
      let errCount :=
        (fl.filter (fun obj => !(aHas st1.fileCache (goJoin a (goToLower obj))))).length
      let st2 := if errCount > 0 then (ListFS cfg fs now fuel st1 a).2 else st1
      if lc = 20 then
        match fsChildNames fs a with
        | .error _ => st2
        | .ok d =>
          let st3 := d.foldl (fun s r =>
            if !(fl.contains r) then
              UpdateDirectoryContents cfg fs now fuel (Stat cfg fs now fuel s (goJoin a r)).2 a
            else s) st2
          let tmpS := d
          fl.foldl (fun s r =>
            if !(tmpS.contains r) then
              UpdateDirectoryContents cfg fs now fuel (Stat cfg fs now fuel s (goJoin a r)).2 a
            else s) st3
      else st2
    else st1
  else st1

/-- One full tick of the loopCache background loop over a snapshot of the
cache items (lc is the tick counter driving the every-twentieth cross-check). -/
def loopCacheTick (cfg : Config) (fs : FS) (now fuel lc : Nat) (st : CacheState) : CacheState :=
  st.fileCache.foldl (loopCacheItem cfg fs now fuel lc) st

namespace V0

/-!
Embedding of the earlier revision of the package (src/unnamed/part_000,
identically src/unnamed/part_001): no scope gating, no FileCacheRD, no
CacheTime stamping. Only the functions claim C3 depends on are embedded:
Stat, UpdateDirectoryContents and updateCacheWithNewFile.
-/

/-- The filesystem path of part_000 Stat given the refresh helper: os.Stat,
record construction (no CacheTime stamp), unconditional insert and directory
refresh. -/
def statMissBody (fs : FS) (udc : CacheState → String → CacheState)
    (st : CacheState) (name lowerCaseName : String) :
    (FileInfo × Option GoError) × CacheState :=
  match fsStat fs name with
  | .error e => ((FileInfo.zero, some (.osErr e)), st)
  | .ok s =>
    let info : FileInfo :=
      { Exists := true, Size := s.size, Mode := s.mode, LastModified := s.modTime,
        IsDir := s.isDir, Name := goBase name }
    let st1 : CacheState := { st with fileCache := aSet st.fileCache lowerCaseName info }
    if info.IsDir then ((info, none), udc st1 name)
    else ((info, none), st1)

/-- The cache fast path of part_000 Stat (no scope gating) given the miss
path. -/
def statBody (miss : CacheState → String → String → (FileInfo × Option GoError) × CacheState)
    (st : CacheState) (name : String) : (FileInfo × Option GoError) × CacheState :=
  let lowerCaseName := goToLower (goClean name)
  match aGet st.fileCache lowerCaseName with
  | some fi =>
    if fi.Name = "" then
      miss ({ st with fileCache := aDel st.fileCache lowerCaseName }) name lowerCaseName
    else ((fi, none), st)
  | none => miss st name lowerCaseName

/-- The body of part_000 UpdateDirectoryContents given the Stat to use:
unconditional re-enumeration of the directory into the cache. -/
def udcBody (fs : FS)
    (stat : CacheState → String → (FileInfo × Option GoError) × CacheState)
    (st : CacheState) (dirName0 : String) : CacheState :=
  let dirName := goClean dirName0
  let lowerCaseDirName := goToLower dirName
  match fsChildNames fs dirName with
  | .error _ => st
  | .ok contents =>
    match stat st dirName with
    | ((_, some _), st1) => st1
    | ((dstat, none), st1) =>
      let dirInfo : FileInfo :=
        { Exists := true, IsDir := true, Name := goBase dirName, Contents := contents,
          LastModified := dstat.LastModified, Mode := dstat.Mode }
      { st1 with fileCache := aSet st1.fileCache lowerCaseDirName dirInfo }

/-- The part_000 Stat and UpdateDirectoryContents pair by structural fuel
recursion (fuel zero is an unreachable artifact). -/
def statUdc (fs : FS) :
    Nat → (CacheState → String → (FileInfo × Option GoError) × CacheState) ×
      (CacheState → String → CacheState)
  | 0 => (fun st _ => ((FileInfo.zero, some (.osErr .generic)), st), fun st _ => st)
  | fuel + 1 =>
    let prev := statUdc fs fuel
    (statBody (statMissBody fs prev.2),
     udcBody fs (statBody (statMissBody fs prev.2)))

/-- Port of part_000 Stat: like the current Stat but with no scope gating and
no CacheTime stamp. -/
def Stat (fs : FS) (fuel : Nat) (st : CacheState) (name : String) :
    (FileInfo × Option GoError) × CacheState :=
  (statUdc fs fuel).1 st name

/-- Port of part_000 UpdateDirectoryContents: unconditional re-enumeration of
the directory from the filesystem into the cache. -/
def UpdateDirectoryContents (fs : FS) (fuel : Nat) (st : CacheState) (dirName0 : String) :
    CacheState :=
  (statUdc fs fuel).2 st dirName0

/-- Port of part_000 updateCacheWithNewFile: with the parent cached as an
existing directory, skip case-insensitive duplicates, else append the name,
re-sort case-insensitively and re-store; with the parent absent from the
cache, refresh it wholesale through UpdateDirectoryContents. -/
def updateCacheWithNewFile (fs : FS) (fuel : Nat) (st : CacheState)
    (dirName fileName : String) : CacheState :=
  let lowerCaseDirName := goToLower (goClean dirName)
  match aGet st.fileCache lowerCaseDirName with
  | some dirInfo =>
    if dirInfo.Exists && dirInfo.IsDir then
      if dirInfo.Contents.any (fun a => goToLower a == goToLower fileName) then st
      else
        let updated : FileInfo :=
          { dirInfo with Contents := sortLower (dirInfo.Contents ++ [fileName]) }
        { st with fileCache := aSet st.fileCache lowerCaseDirName updated }
    else st
  | none => UpdateDirectoryContents fs fuel st dirName

end V0

/-- Every registered handle has an armed idle timer. -/
@[reducible] def leasesTimed (st : CacheState) : Prop :=
  ∀ h ∈ st.fileHandles, (aGet st.fileTimers h).isSome = true

/-- Two cache states agree on the handle registry and the timer table. -/
def sameHT (a b : CacheState) : Prop :=
  a.fileHandles = b.fileHandles ∧ a.fileTimers = b.fileTimers

/-- Every armed timer belongs to a registered handle (true in every reachable
state: timers are armed only next to handle registration and swept with it). -/
@[reducible] def timersRegistered (st : CacheState) : Prop :=
  ∀ kv ∈ st.fileTimers, kv.1 ∈ st.fileHandles

/-! Concrete inputs used by the closed counterexample and witness theorems. -/

/-- A small out-of-scope directory tree rooted at /tmp/foo. -/
def fsTmp : FS :=
  { nodes := [
      ("/tmp", .dir { isDir := true, name := "tmp" } ["foo"]),
      ("/tmp/foo", .dir { isDir := true, name := "foo" } ["a.txt"]),
      ("/tmp/foo/a.txt", .file { size := 3, name := "a.txt" })] }

/-- A filesystem on which /autoupdate/x exists as a plain file. -/
def fsX : FS := { nodes := [("/autoupdate/x", .file { size := 1, name := "x" })] }

/-- A cache holding a stale negative record for /autoupdate/x. -/
def stNeg : CacheState :=
  { fileCache := [("/autoupdate/x", { Exists := false, CacheTime := 0 })] }

/-- An in-scope tree with directory /autoupdate/d holding f.txt and g.txt. -/
def fsTree : FS :=
  { nodes := [
      ("/autoupdate", .dir { isDir := true, name := "autoupdate" } ["d"]),
      ("/autoupdate/d", .dir { isDir := true, name := "d" } ["f.txt", "g.txt"]),
      ("/autoupdate/d/f.txt", .file { size := 3, name := "f.txt" }),
      ("/autoupdate/d/g.txt", .file { size := 5, name := "g.txt" })] }

/-- A cache mirroring fsTree for /autoupdate/d and its child f.txt. -/
def stTree : CacheState :=
  { fileCache := [
      ("/autoupdate/d", { Exists := true, IsDir := true, Name := "d", Contents := ["f.txt", "g.txt"] }),
      ("/autoupdate/d/f.txt", { Exists := true, Name := "f.txt", Size := 3 })] }

/-- An in-scope tree whose file /autoupdate/d/w.txt rejects data writes. -/
def fsWf : FS :=
  { nodes := [
      ("/autoupdate", .dir { isDir := true, name := "autoupdate" } ["d"]),
      ("/autoupdate/d", .dir { isDir := true, name := "d" } ["g.txt"]),
      ("/autoupdate/d/g.txt", .file { size := 5, name := "g.txt" })],
    writeFail := ["/autoupdate/d/w.txt"] }

/-- An empty in-scope directory whose future file a.txt rejects writes. -/
def fsAppendFail : FS :=
  { nodes := [("/autoupdate", .dir { isDir := true, name := "autoupdate" } [])],
    writeFail := ["/autoupdate/a.txt"] }

/-- One registered handle and timer at /a/bc only. -/
def stBC : CacheState := { fileHandles := ["/a/bc"], fileTimers := [("/a/bc", 500)] }

/-- Handles and timers at /a/b, /a/bc and /c/d. -/
def stABC : CacheState :=
  { fileHandles := ["/a/b", "/a/bc", "/c/d"],
    fileTimers := [("/a/b", 300), ("/a/bc", 400), ("/c/d", 500)] }

/-- A filesystem whose stat of /s fails with a permission error. -/
def fsPerm : FS := { statErr := [("/s", .permission)] }

/-- The /data directory of the C3 scenario, holding one file x.txt. -/
def fsData : FS :=
  { nodes := [
      ("/data", .dir { isDir := true, name := "data" } ["x.txt"]),
      ("/data/x.txt", .file { size := 1, name := "x.txt" })] }

/-- A cache holding /data as a directory with children b.txt and D.txt. -/
def stData : CacheState :=
  { fileCache := [("/data", { Exists := true, IsDir := true, Name := "data",
                              Contents := ["b.txt", "D.txt"] })] }

/-- The empty cache state. -/
def stEmpty : CacheState := {}

/-- A state with one registered handle and an armed timer for the C5 witness. -/
def stLease : CacheState :=
  { fileHandles := ["/autoupdate/d/f.txt"], fileTimers := [("/autoupdate/d/f.txt", 10)] }

/-- The filesystem fsTree after a four-byte handle write to f.txt at time 100. -/
def fsTreeW : FS :=
  { nodes := [
      ("/autoupdate/d/f.txt", .file { size := 7, modTime := 100, name := "f.txt" }),
      ("/autoupdate", .dir { isDir := true, name := "autoupdate" } ["d"]),
      ("/autoupdate/d", .dir { isDir := true, name := "d" } ["f.txt", "g.txt"]),
      ("/autoupdate/d/g.txt", .file { size := 5, name := "g.txt" })] }

/-- The directory record UpdateDirectoryContents stores for directory d with
fresh contents l, taking LastModified and Mode from the Stat result. -/
def dirRecord (d : String) (l : List String) (pfi : FileInfo) : FileInfo :=
  { Exists := true, IsDir := true, Name := goBase d, Contents := l,
    LastModified := pfi.LastModified, Mode := pfi.Mode }

/-- The negative record UpdateFileInfo stores for a missing file. -/
def negRecord (now : Nat) : FileInfo := { Exists := false, CacheTime := now }

/-- The filesystem fsTree after removing /autoupdate/d/f.txt. -/
def fsTreeDel : FS :=
  { nodes := [
      ("/autoupdate", .dir { isDir := true, name := "autoupdate" } ["d"]),
      ("/autoupdate/d", .dir { isDir := true, name := "d" } ["g.txt"]),
      ("/autoupdate/d/g.txt", .file { size := 5, name := "g.txt" })] }

/-! Association-map laws. -/

theorem find_filter_of_ne {α : Type} (m : List (String × α)) (k q : String) (h : q ≠ k) :
    (m.filter (fun kv => kv.1 != k)).find? (fun kv => kv.1 == q) =
      m.find? (fun kv => kv.1 == q) := by
  have hkq : (k == q) = false := by
    simp only [beq_eq_false_iff_ne]
    exact fun hq => h hq.symm
  induction m with
  | nil => rfl
  | cons a tl ih =>
    by_cases hak : a.1 = k
    · have h2 : (a.1 == q) = false := by
        simp only [beq_eq_false_iff_ne]
        intro hq
        exact h (hq ▸ hak)
      simp [List.filter_cons, List.find?_cons, hak, h2, hkq, ih]
    · by_cases haq : a.1 = q
      · simp [List.filter_cons, List.find?_cons, hak, haq, h, ih]
      · simp [List.filter_cons, List.find?_cons, hak, haq, h, ih]

theorem find_filter_self {α : Type} (m : List (String × α)) (k : String) :
    (m.filter (fun kv => kv.1 != k)).find? (fun kv => kv.1 == k) = none := by
  induction m with
  | nil => rfl
  | cons a tl ih =>
    by_cases hak : a.1 = k
    · simp [List.filter_cons, hak, ih]
    · simp [List.filter_cons, List.find?_cons, hak, ih]

theorem aGet_aSet_self {α : Type} (m : List (String × α)) (k : String) (v : α) :
    aGet (aSet m k v) k = some v := by
  simp [aGet, aSet, List.find?_cons]

theorem aGet_aSet_ne {α : Type} (m : List (String × α)) (k q : String) (v : α) (h : q ≠ k) :
    aGet (aSet m k v) q = aGet m q := by
  have hkq : (k == q) = false := by
    simp only [beq_eq_false_iff_ne]
    exact fun hq => h hq.symm
  simp [aGet, aSet, List.find?_cons, hkq, find_filter_of_ne m k q h]

theorem aGet_aDel_self {α : Type} (m : List (String × α)) (k : String) :
    aGet (aDel m k) k = none := by
  simp [aGet, aDel, find_filter_self]

theorem aGet_aDel_ne {α : Type} (m : List (String × α)) (k q : String) (h : q ≠ k) :
    aGet (aDel m k) q = aGet m q := by
  simp [aGet, aDel, find_filter_of_ne m k q h]

theorem isPre_refl {α : Type} [BEq α] [LawfulBEq α] (l : List α) : l.isPrefixOf l = true := by
  induction l with
  | nil => rfl
  | cons a tl ih => simp [List.isPrefixOf, ih]

theorem strStarts_refl (s : String) : strStarts s s = true := by
  simp [strStarts, isPre_refl]

theorem sameHT_refl (a : CacheState) : sameHT a a := ⟨rfl, rfl⟩

theorem sameHT_trans {a b c : CacheState} (h1 : sameHT a b) (h2 : sameHT b c) : sameHT a c :=
  ⟨h1.1.trans h2.1, h1.2.trans h2.2⟩

theorem Stat_zero (cfg : Config) (fs : FS) (now : Nat) (st : CacheState) (name : String) :
    Stat cfg fs now 0 st name = ((FileInfo.zero, some (.osErr .generic)), st) := rfl

theorem Stat_succ (cfg : Config) (fs : FS) (now fuel : Nat) (st : CacheState) (name : String) :
    Stat cfg fs now (fuel + 1) st name = statBody cfg (statMiss cfg fs now fuel) st name := rfl

theorem UDC_zero (cfg : Config) (fs : FS) (now : Nat) (st : CacheState) (d : String) :
    UpdateDirectoryContents cfg fs now 0 st d = st := rfl

theorem UDC_succ (cfg : Config) (fs : FS) (now fuel : Nat) (st : CacheState) (d : String) :
    UpdateDirectoryContents cfg fs now (fuel + 1) st d =
      udcBody cfg fs (Stat cfg fs now (fuel + 1)) st d := rfl

theorem sameHT_refl0 (a : CacheState) : sameHT a a := ⟨rfl, rfl⟩

theorem core_ht (cfg : Config) (fs : FS) (now : Nat) : ∀ fuel : Nat,
    (∀ st name, sameHT (Stat cfg fs now fuel st name).2 st) ∧
    (∀ st name lo, sameHT (statMiss cfg fs now fuel st name lo).2 st) ∧
    (∀ st d, sameHT (UpdateDirectoryContents cfg fs now fuel st d) st) := by
  have hstatBody : ∀ (miss : CacheState → String → String →
        (FileInfo × Option GoError) × CacheState),
      (∀ st name lo, sameHT (miss st name lo).2 st) →
      ∀ st name, sameHT (statBody cfg miss st name).2 st := by
    intro miss hm st name
    simp only [statBody]
    rcases hg : (if inCacheScope cfg (goToLower (goClean name)) then
        aGet st.fileCache (goToLower (goClean name)) else none) with _ | fi
    · simp only [hg]
      exact hm st name _
    · simp only [hg]
      split
      · exact sameHT_trans (hm _ name _) ⟨rfl, rfl⟩
      · exact ⟨rfl, rfl⟩
  have hmissBody : ∀ (udc : CacheState → String → CacheState),
      (∀ st d, sameHT (udc st d) st) →
      ∀ st name lo, sameHT (statMissBody cfg fs now udc st name lo).2 st := by
    intro udc hu st name lo
    simp only [statMissBody]
    rcases hfs : fsStat fs name with e | sv
    · simp only [hfs]
      exact ⟨rfl, rfl⟩
    · simp only [hfs]
      split
      · split
        · exact sameHT_trans (hu _ _) ⟨rfl, rfl⟩
        · exact ⟨rfl, rfl⟩
      · exact ⟨rfl, rfl⟩
  have hudcBody : ∀ (statf : CacheState → String → (FileInfo × Option GoError) × CacheState),
      (∀ st n, sameHT (statf st n).2 st) →
      ∀ st d, sameHT (udcBody cfg fs statf st d) st := by
    intro statf hsf st d
    simp only [udcBody]
    split
    · exact ⟨rfl, rfl⟩
    · rcases hcn : fsChildNames fs (goClean d) with e | contents
      · simp only [hcn]
        exact ⟨rfl, rfl⟩
      · simp only [hcn]
        rcases hst : statf
            ({ st with fileCacheRD := aDel st.fileCacheRD (goToLower (goClean d)) })
            (goClean d) with ⟨⟨ds, oe⟩, st2⟩
        have h2 : sameHT st2 st := by
          have hh := hsf ({ st with fileCacheRD := aDel st.fileCacheRD (goToLower (goClean d)) })
              (goClean d)
          rw [hst] at hh
          exact sameHT_trans hh ⟨rfl, rfl⟩
        rcases oe with _ | e
        · simp only [hst]
          exact sameHT_trans ⟨rfl, rfl⟩ h2
        · simp only [hst]
          exact h2
  intro fuel
  induction fuel with
  | zero =>
    refine ⟨fun st name => ⟨rfl, rfl⟩, ?_, fun st d => ⟨rfl, rfl⟩⟩
    intro st name lo
    simp only [statMiss]
    exact hmissBody _ (fun st d => ⟨rfl, rfl⟩) st name lo
  | succ n ih =>
    obtain ⟨ihS, ihM, ihU⟩ := ih
    have hS : ∀ st name, sameHT (Stat cfg fs now (n + 1) st name).2 st := by
      intro st name
      rw [Stat_succ]
      exact hstatBody _ ihM st name
    have hU : ∀ st d, sameHT (UpdateDirectoryContents cfg fs now (n + 1) st d) st := by
      intro st d
      rw [UDC_succ]
      exact hudcBody _ hS st d
    have hM : ∀ st name lo, sameHT (statMiss cfg fs now (n + 1) st name lo).2 st := by
      intro st name lo
      simp only [statMiss]
      exact hmissBody _ hU st name lo
    exact ⟨hS, hM, hU⟩

theorem sameHT_ite (c : Prop) [Decidable c] (a b st : CacheState)
    (ha : c → sameHT a st) (hb : ¬c → sameHT b st) : sameHT (if c then a else b) st := by
  split
  · exact ha (by assumption)
  · exact hb (by assumption)

theorem sameHT_withFC (x : CacheState) (v : List (String × FileInfo)) :
    sameHT { x with fileCache := v } x := ⟨rfl, rfl⟩

theorem sameHT_withRD (x : CacheState) (v : List (String × FileInfoRD)) :
    sameHT { x with fileCacheRD := v } x := ⟨rfl, rfl⟩

theorem readDirDisk_ht (cfg : Config) (fs : FS) (now : Nat) (st : CacheState) (d lo : String) :
    sameHT (readDirDisk cfg fs now st d lo).2 st := by
  simp only [readDirDisk]
  rcases hcn : fsChildNames fs d with e | names
  · exact sameHT_refl st
  · simp only []
    rcases hei : entryInfos fs d names with e | infos
    · exact sameHT_refl st
    · by_cases hsc : inCacheScope cfg d
      · simp only [hsc, if_true]
        exact sameHT_refl _
      · simp only [hsc, if_false]
        exact sameHT_refl _

theorem ReadDir_ht (cfg : Config) (fs : FS) (now : Nat) (st : CacheState) (d : String) :
    sameHT (ReadDir cfg fs now st d).2 st := by
  simp only [ReadDir]
  rcases hrd : aGet st.fileCacheRD (goToLower (goClean d)) with _ | rd
  · exact readDirDisk_ht cfg fs now st d _
  · by_cases hsc : inCacheScope cfg d
    · simp only [hsc, if_true]
      rcases hfc : aGet st.fileCache (goToLower (goClean d)) with _ | fc
      · exact sameHT_refl st
      · by_cases hstale : fc.CacheTime - rd.CacheTime > 0
        · simp only [hstale, if_true]
          exact sameHT_trans (readDirDisk_ht cfg fs now _ d _) (sameHT_refl _)
        · simp only [hstale, if_false]
          exact sameHT_refl st
    · simp only [hsc, if_false]
      exact readDirDisk_ht cfg fs now st d _

theorem ListFS_ht (cfg : Config) (fs : FS) (now fuel : Nat) (st : CacheState) (p : String) :
    sameHT (ListFS cfg fs now fuel st p).2 st := by
  simp only [ListFS]
  rcases hstat : Stat cfg fs now fuel st p with ⟨⟨fi, oe⟩, st1⟩
  have h1 : sameHT st1 st := by
    have h := (core_ht cfg fs now fuel).1 st p
    rw [hstat] at h
    exact h
  rcases oe with _ | e
  · simp only [hstat]
    by_cases hdir : fi.IsDir = false
    · simp only [hdir, if_true]
      exact h1
    · simp only [hdir, if_false]
      by_cases hlen : fi.Contents.length = 0
      · simp only [hlen, if_true]
        have h2 := (core_ht cfg fs now fuel).2.2 st1 p
        rcases hread : ReadDir cfg fs now (UpdateDirectoryContents cfg fs now fuel st1 p)
            (goToLower (goClean p)) with ⟨r, st3⟩
        have h3 := ReadDir_ht cfg fs now (UpdateDirectoryContents cfg fs now fuel st1 p)
            (goToLower (goClean p))
        rw [hread] at h3
        rcases r with e | objs
        · simp only [hread]
          exact sameHT_trans h3 (sameHT_trans h2 h1)
        · simp only [hread]
          exact sameHT_trans h3 (sameHT_trans h2 h1)
      · simp only [hlen, if_false]
        rcases hread : ReadDir cfg fs now st1 (goToLower (goClean p)) with ⟨r, st3⟩
        have h3 := ReadDir_ht cfg fs now st1 (goToLower (goClean p))
        rw [hread] at h3
        rcases r with e | objs
        · simp only [hread]
          exact sameHT_trans h3 h1
        · simp only [hread]
          exact sameHT_trans h3 h1
  · simp only [hstat]
    exact h1

theorem UpdateFileInfo_ht (cfg : Config) (fs : FS) (now fuel : Nat) (st : CacheState) (n : String) :
    sameHT (UpdateFileInfo cfg fs now fuel st n) st := by
  simp only [UpdateFileInfo]
  apply sameHT_ite
  · intro _
    exact sameHT_refl st
  · intro _
    rcases hfs : fsStat fs n with e | s
    · rcases e with _ | _ | _
      · simp only [hfs]
        exact sameHT_withFC st _
      · simp only [hfs]
        exact sameHT_refl st
      · simp only [hfs]
        exact sameHT_refl st
    · simp only [hfs]
      have hcs : sameHT (if s.isDir = true then ListFS cfg fs now fuel st n
          else (([] : List String), st)).2 st := by
        split
        · exact ListFS_ht cfg fs now fuel st n
        · exact sameHT_refl st
      apply sameHT_ite
      · intro _
        exact sameHT_trans ((core_ht cfg fs now fuel).2.2 _ n)
          (sameHT_trans (sameHT_withFC _ _) hcs)
      · intro _
        exact sameHT_trans (sameHT_withFC _ _) hcs

theorem UFIWS_ht (cfg : Config) (fs : FS) (now fuel : Nat) (st : CacheState) (n : String)
    (sz : Int) : sameHT (UpdateFileInfoWithSize cfg fs now fuel st n sz) st := by
  simp only [UpdateFileInfoWithSize]
  rcases hg : aGet st.fileCache (goToLower (goClean n)) with _ | fi
  · exact UpdateFileInfo_ht cfg fs now fuel st n
  · by_cases hsc : inCacheScope cfg (goToLower (goClean n))
    · simp only [hsc, if_true]
      exact sameHT_refl _
    · simp only [hsc, if_false]
      exact sameHT_refl st

theorem closeStatSize_ht (cfg : Config) (fs : FS) (now fuel : Nat) (st : CacheState)
    (key : String) : sameHT (closeStatSize cfg fs now fuel st key) st := by
  simp only [closeStatSize]
  rcases hfs : fsStat fs key with e | s
  · exact sameHT_refl st
  · exact UFIWS_ht cfg fs now fuel st key s.size

theorem dropTimer_handles (st : CacheState) (key : String) :
    (dropTimer st key).fileHandles = st.fileHandles := by
  simp only [dropTimer]
  rcases aGet st.fileTimers key with _ | t
  · rfl
  · rfl

theorem dropTimer_cache (st : CacheState) (key : String) :
    (dropTimer st key).fileCache = st.fileCache := by
  simp only [dropTimer]
  rcases aGet st.fileTimers key with _ | t
  · rfl
  · rfl

theorem dropTimer_timers (st : CacheState) (key q : String) :
    aGet (dropTimer st key).fileTimers q =
      if q = key then none else aGet st.fileTimers q := by
  simp only [dropTimer]
  rcases ht : aGet st.fileTimers key with _ | t
  · by_cases hq : q = key
    · subst hq
      simp [ht]
    · simp [hq]
  · by_cases hq : q = key
    · subst hq
      simp [aGet_aDel_self]
    · simp [hq, aGet_aDel_ne st.fileTimers key q hq]

theorem closeFileStep_handles (cfg : Config) (fs : FS) (now fuel : Nat) (lower : String)
    (st : CacheState) (key : String) :
    (closeFileStep cfg fs now fuel lower st key).fileHandles =
      if strStarts key lower = true then st.fileHandles.filter (fun h => h != key)
      else st.fileHandles := by
  by_cases hpre : strStarts key lower = true
  · simp only [closeFileStep, hpre, if_true, dropTimer_handles]
    by_cases hcont : st.fileHandles.contains key = true
    · simp only [hcont, if_true]
      exact congrArg (List.filter _) (closeStatSize_ht cfg fs now fuel st key).1
    · simp only [hcont, if_false]
      have hnm : key ∉ st.fileHandles := fun hm => hcont (List.elem_eq_true_of_mem hm)
      refine (List.filter_eq_self.mpr ?_).symm
      intro a ha
      simp only [bne_iff_ne, ne_eq]
      intro he
      exact hnm (he ▸ ha)
  · simp [closeFileStep, hpre]

theorem closeFileStep_timers (cfg : Config) (fs : FS) (now fuel : Nat) (lower : String)
    (st : CacheState) (key q : String) :
    aGet (closeFileStep cfg fs now fuel lower st key).fileTimers q =
      if q = key ∧ strStarts key lower = true then none
      else aGet st.fileTimers q := by
  by_cases hpre : strStarts key lower = true
  · simp only [closeFileStep, hpre, if_true, dropTimer_timers]
    by_cases hcont : st.fileHandles.contains key = true
    · simp only [hcont, if_true]
      have hts : ({ closeStatSize cfg fs now fuel st key with
          fileHandles := (closeStatSize cfg fs now fuel st key).fileHandles.filter
            (fun h => h != key) } : CacheState).fileTimers = st.fileTimers :=
        (closeStatSize_ht cfg fs now fuel st key).2
      rw [hts]
      by_cases hq : q = key
      · simp [hq, hpre]
      · simp [hq]
    · simp only [hcont, if_false]
      by_cases hq : q = key
      · simp [hq, hpre]
      · simp [hq]
  · have hc : (q = key ∧ strStarts key lower = true) = False := by
      simp [hpre]
    simp [closeFileStep, hpre, hc]

theorem closeFold_no_match (cfg : Config) (fs : FS) (now fuel : Nat) (lower : String) :
    ∀ (l : List String) (s : CacheState), (∀ k ∈ l, strStarts k lower = false) →
      l.foldl (closeFileStep cfg fs now fuel lower) s = s := by
  intro l
  induction l with
  | nil => intro s _; rfl
  | cons k tl ih =>
    intro s hno
    rw [List.foldl_cons]
    have hk : strStarts k lower = false := hno k (List.mem_cons_self k tl)
    have hstep : closeFileStep cfg fs now fuel lower s k = s := by
      simp [closeFileStep, hk]
    rw [hstep]
    exact ih s (fun x hx => hno x (List.mem_cons_of_mem k hx))

theorem closeFold_handles (cfg : Config) (fs : FS) (now fuel : Nat) (lower : String) :
    ∀ (l : List String) (s : CacheState) (h : String),
      h ∈ (l.foldl (closeFileStep cfg fs now fuel lower) s).fileHandles ↔
        (h ∈ s.fileHandles ∧ ¬(h ∈ l ∧ strStarts h lower = true)) := by
  intro l
  induction l with
  | nil =>
    intro s h
    simp
  | cons k tl ih =>
    intro s h
    rw [List.foldl_cons, ih]
    rw [closeFileStep_handles]
    by_cases hpre : strStarts k lower = true
    · simp only [hpre, if_true, List.mem_filter, bne_iff_ne, ne_eq, List.mem_cons]
      by_cases hk : h = k
      · subst hk
        simp [hpre]
      · simp [hk]
    · simp only [hpre, if_false, List.mem_cons]
      by_cases hk : h = k
      · subst hk
        have : strStarts h lower = false := by
          simpa using hpre
        simp [this]
      · simp [hk]

theorem closeFold_timers (cfg : Config) (fs : FS) (now fuel : Nat) (lower : String) :
    ∀ (l : List String) (s : CacheState) (q : String),
      aGet (l.foldl (closeFileStep cfg fs now fuel lower) s).fileTimers q =
        if q ∈ l ∧ strStarts q lower = true then none
        else aGet s.fileTimers q := by
  intro l
  induction l with
  | nil =>
    intro s q
    simp
  | cons k tl ih =>
    intro s q
    rw [List.foldl_cons, ih, closeFileStep_timers]
    by_cases hmem : q ∈ tl ∧ strStarts q lower = true
    · have hmem2 : q ∈ k :: tl ∧ strStarts q lower = true :=
        ⟨List.mem_cons_of_mem k hmem.1, hmem.2⟩
      simp [hmem, hmem2]
    · by_cases hqk : q = k ∧ strStarts k lower = true
      · obtain ⟨hq, hs⟩ := hqk
        subst hq
        have hmem2 : q ∈ q :: tl ∧ strStarts q lower = true := ⟨List.mem_cons_self q tl, hs⟩
        simp [hmem, hmem2, hs]
      · have hmem2 : ¬(q ∈ k :: tl ∧ strStarts q lower = true) := by
          rintro ⟨hm, hs⟩
          rcases List.mem_cons.mp hm with hq | hq
          · exact hqk ⟨hq, hq ▸ hs⟩
          · exact hmem ⟨hq, hs⟩
        have hmem3 : ¬((q = k ∨ q ∈ tl) ∧ strStarts q lower = true) := by
          simpa [List.mem_cons] using hmem2
        simp [hmem, hqk, hmem3]

theorem CloseFile_no_match (cfg : Config) (fs : FS) (now fuel : Nat) (st : CacheState)
    (name : String) (h : ∀ k ∈ st.fileHandles, strStarts k (goToLower (goClean name)) = false) :
    CloseFile cfg fs now fuel st name = st := by
  simp only [CloseFile]
  exact closeFold_no_match cfg fs now fuel (goToLower (goClean name)) st.fileHandles st h

theorem CloseFile_handles (cfg : Config) (fs : FS) (now fuel : Nat) (st : CacheState)
    (name h : String) :
    h ∈ (CloseFile cfg fs now fuel st name).fileHandles ↔
      (h ∈ st.fileHandles ∧ strStarts h (goToLower (goClean name)) = false) := by
  simp only [CloseFile]
  rw [closeFold_handles]
  constructor
  · rintro ⟨hm, hno⟩
    refine ⟨hm, ?_⟩
    by_cases hb : strStarts h (goToLower (goClean name)) = true
    · exact absurd ⟨hm, hb⟩ hno
    · simpa using hb
  · rintro ⟨hm, hno⟩
    refine ⟨hm, ?_⟩
    rintro ⟨_, hb⟩
    rw [hno] at hb
    cases hb

theorem CloseFile_timers (cfg : Config) (fs : FS) (now fuel : Nat) (st : CacheState)
    (name q : String) :
    aGet (CloseFile cfg fs now fuel st name).fileTimers q =
      if q ∈ st.fileHandles ∧ strStarts q (goToLower (goClean name)) = true then none
      else aGet st.fileTimers q := by
  simp only [CloseFile]
  exact closeFold_timers cfg fs now fuel (goToLower (goClean name)) st.fileHandles st q

theorem resetTimer_handles (now : Nat) (st : CacheState) (name : String) :
    (resetTimer now st name).fileHandles = st.fileHandles := by
  simp only [resetTimer]
  rcases aGet st.fileTimers (goToLower (goClean name)) with _ | t
  · rfl
  · rfl

theorem resetTimer_self (now : Nat) (st : CacheState) (name : String) :
    aGet (resetTimer now st name).fileTimers (goToLower (goClean name)) = some (now + 120) := by
  simp only [resetTimer]
  rcases aGet st.fileTimers (goToLower (goClean name)) with _ | t
  · exact aGet_aSet_self st.fileTimers _ _
  · exact aGet_aSet_self st.fileTimers _ _

theorem resetTimer_ne (now : Nat) (st : CacheState) (name q : String)
    (h : q ≠ goToLower (goClean name)) :
    aGet (resetTimer now st name).fileTimers q = aGet st.fileTimers q := by
  simp only [resetTimer]
  rcases aGet st.fileTimers (goToLower (goClean name)) with _ | t
  · exact aGet_aSet_ne st.fileTimers _ q _ h
  · exact aGet_aSet_ne st.fileTimers _ q _ h

theorem timersRegistered_mem (st : CacheState) (h : timersRegistered st) (q : String)
    (hq : (aGet st.fileTimers q).isSome = true) : q ∈ st.fileHandles := by
  rcases hfind : st.fileTimers.find? (fun kv => kv.1 == q) with _ | kv
  · rw [aGet, hfind] at hq
    cases hq
  · have hmem := List.mem_of_find?_eq_some hfind
    have hpred := List.find?_some hfind
    have heq : kv.1 = q := by simpa using hpred
    exact heq ▸ h kv hmem

theorem Stat_hit (cfg : Config) (fs : FS) (now fuel : Nat) (st : CacheState) (name : String)
    (fi : FileInfo) (hsc : inCacheScope cfg (goToLower (goClean name)) = true)
    (hget : aGet st.fileCache (goToLower (goClean name)) = some fi) (hn : fi.Name ≠ "") :
    Stat cfg fs now (fuel + 1) st name = ((fi, none), st) := by
  simp only [Stat_succ, statBody, hsc, if_true, hget]
  simp [hn]

theorem Stat_missing (cfg : Config) (fs : FS) (now fuel : Nat) (st : CacheState) (name : String)
    (e : OSErr) (hget : aGet st.fileCache (goToLower (goClean name)) = none)
    (hfs : fsStat fs name = .error e) :
    Stat cfg fs now (fuel + 1) st name = ((FileInfo.zero, some (.osErr e)), st) := by
  simp only [Stat_succ, statBody]
  by_cases hsc : inCacheScope cfg (goToLower (goClean name))
  · simp [hsc, hget, statMiss, statMissBody, hfs]
  · simp [hsc, statMiss, statMissBody, hfs]

/-- C9: CloseFile(name) closes and removes every registered handle and timer
whose key has the lowered cleaned name as a string prefix — including handles
for distinct paths that merely share that string prefix — and leaves every
handle and timer without that prefix untouched. -/
theorem c9_closefile_sweep (cfg : Config) (fs : FS) (now fuel : Nat) (st : CacheState)
    (name : String) (hT : timersRegistered st) :
    (∀ key ∈ st.fileHandles, strStarts key (goToLower (goClean name)) = true →
        key ∉ (CloseFile cfg fs now fuel st name).fileHandles) ∧
    (∀ key, (aGet st.fileTimers key).isSome = true →
        strStarts key (goToLower (goClean name)) = true →
        aGet (CloseFile cfg fs now fuel st name).fileTimers key = none) ∧
    (∀ key, strStarts key (goToLower (goClean name)) = false →
        ((key ∈ (CloseFile cfg fs now fuel st name).fileHandles ↔ key ∈ st.fileHandles) ∧
         aGet (CloseFile cfg fs now fuel st name).fileTimers key = aGet st.fileTimers key)) := by
  refine ⟨?_, ?_, ?_⟩
  · intro key hmem hpre hcontra
    rw [CloseFile_handles] at hcontra
    rw [hcontra.2] at hpre
    cases hpre
  · intro key hsome hpre
    rw [CloseFile_timers]
    have hmem : key ∈ st.fileHandles := timersRegistered_mem st hT key hsome
    simp [hmem, hpre]
  · intro key hpre
    constructor
    · rw [CloseFile_handles]
      constructor
      · exact fun h => h.1
      · exact fun h => ⟨h, hpre⟩
    · rw [CloseFile_timers]
      have : ¬(key ∈ st.fileHandles ∧ strStarts key (goToLower (goClean name)) = true) := by
        rintro ⟨_, hb⟩
        rw [hpre] at hb
        cases hb
      simp [this]

/-- C9 witness: with handles and timers at /a/b, /a/bc and /c/d, CloseFile
on /a/b also closes /a/bc (a distinct path sharing the prefix) and leaves
/c/d untouched. -/
theorem c9_closefile_sweep_witness :
    ("/a/bc" ∉ (CloseFile defaultConfig {} 0 5 stABC "/a/b").fileHandles) ∧
    aGet (CloseFile defaultConfig {} 0 5 stABC "/a/b").fileTimers "/a/bc" = none ∧
    aGet (CloseFile defaultConfig {} 0 5 stABC "/a/b").fileTimers "/c/d" =
      aGet stABC.fileTimers "/c/d" :=
  ⟨(c9_closefile_sweep defaultConfig {} 0 5 stABC "/a/b" (by decide)).1 "/a/bc"
      (by decide) (by decide),
   (c9_closefile_sweep defaultConfig {} 0 5 stABC "/a/b" (by decide)).2.1 "/a/bc"
      (by decide) (by decide),
   ((c9_closefile_sweep defaultConfig {} 0 5 stABC "/a/b" (by decide)).2.2 "/c/d"
      (by decide)).2⟩

/-- C8 counterexample: with a handle registered only at /a/bc, calling
CloseFile on /a/b — a path with no registered handle — is not a no-op: the
prefix sweep closes the /a/bc handle and drops its timer. -/
theorem c8_counterexample :
    ("/a/b" ∈ stBC.fileHandles → False) ∧
    CloseFile defaultConfig {} 0 5 stBC "/a/b" ≠ stBC ∧
    ("/a/bc" ∈ (CloseFile defaultConfig {} 0 5 stBC "/a/b").fileHandles → False) := by
  decide

/-- C8 (amended): when the underlying open fails, OpenFile returns that error
verbatim, leaves the filesystem unchanged, and leaves no handle and no timer
registered for the path; and CloseFile is a no-op whenever no registered
handle key has the lowered cleaned name as a prefix (in particular on a
repeated close of the same name). -/
theorem c8_open_close (cfg : Config) (fs : FS) (now fuel : Nat) (st : CacheState)
    (name : String) (flag perm : Nat) (e : OSErr)
    (hc : goClean name = name) (hl : goToLower name = name) :
    (fsOpenFile fs name flag perm now = .error e → timersRegistered st →
      ((OpenFile cfg fs now fuel st name flag perm).1 = some (.osErr e) ∧
       (OpenFile cfg fs now fuel st name flag perm).2.2 = fs ∧
       name ∉ (OpenFile cfg fs now fuel st name flag perm).2.1.fileHandles ∧
       aGet (OpenFile cfg fs now fuel st name flag perm).2.1.fileTimers name = none)) ∧
    ((∀ h ∈ st.fileHandles, strStarts h name = false) →
      CloseFile cfg fs now fuel st name = st) := by
  constructor
  · intro hOpen hT
    simp only [OpenFile, hc, hl, hOpen]
    refine ⟨trivial, trivial, ?_, ?_⟩
    · intro hmem
      rw [CloseFile_handles] at hmem
      rw [hc, hl, strStarts_refl] at hmem
      cases hmem.2
    · rw [CloseFile_timers, hc, hl]
      by_cases hmem : name ∈ st.fileHandles
      · simp [hmem, strStarts_refl]
      · have hno : ¬(name ∈ st.fileHandles ∧ strStarts name name = true) := fun h => hmem h.1
        rw [if_neg hno]
        rcases hg : aGet st.fileTimers name with _ | t
        · rfl
        · exact absurd (timersRegistered_mem st hT name (by simp [hg])) hmem
  · intro hH
    refine CloseFile_no_match cfg fs now fuel st name ?_
    rw [hc, hl]
    exact hH

/-- C8 witness: opening a missing file without O_CREATE fails and registers
nothing, and CloseFile on a state with no matching handles is a no-op. -/
theorem c8_open_close_witness :
    ((OpenFile defaultConfig {} 7 5 stBC "/x/y.txt" 0 420).1 =
        some (.osErr .notExist) ∧
      (OpenFile defaultConfig {} 7 5 stBC "/x/y.txt" 0 420).2.2 = ({} : FS) ∧
      "/x/y.txt" ∉ (OpenFile defaultConfig {} 7 5 stBC "/x/y.txt" 0 420).2.1.fileHandles ∧
      aGet (OpenFile defaultConfig {} 7 5 stBC "/x/y.txt" 0 420).2.1.fileTimers "/x/y.txt" =
        none) ∧
    CloseFile defaultConfig {} 7 5 stBC "/x/y.txt" = stBC :=
  ⟨(c8_open_close defaultConfig {} 7 5 stBC "/x/y.txt" 0 420 .notExist (by decide)
      (by decide)).1 (by rfl) (by decide),
   (c8_open_close defaultConfig {} 7 5 stBC "/x/y.txt" 0 420 .notExist (by decide)
      (by decide)).2 (by decide)⟩

/-- C6: the depth bound of inCacheScope is computed with filepath.SplitList,
which splits on the colon list separator instead of the path separator, so a
colon-free path always counts as one segment and the depth restriction never
rejects it: a path six segments below the root still passes the code's check
while the specified inScope predicate (root prefix and at most maxDepth
segments below the root) rejects it. -/
theorem c6_scope_depth_bug :
    inCacheScope defaultConfig "/autoupdate/a/b/c/d/e/f" = true ∧
    inScopeSpec "/autoupdate/a/b/c/d/e/f" "/autoupdate" 3 = false ∧
    goSplitList "/autoupdate/a/b/c/d/e/f" = ["/autoupdate/a/b/c/d/e/f"] ∧
    inCacheScope defaultConfig "/autoupdate" = false ∧
    inScopeSpec "/autoupdate" "/autoupdate" 3 = true := by
  decide

/-- C2 counterexample: a cached negative record far older than the 300-second
TTL is still served as a hit by FileExists — no eviction, no filesystem
re-probe (the result is the same with an empty filesystem as with one where
the file exists), contradicting lazy read-side expiry. -/
theorem c2_counterexample :
    FileExists defaultConfig fsX 10000 5 stNeg "/autoupdate/x" = (false, stNeg) ∧
    FileExists defaultConfig {} 10000 5 stNeg "/autoupdate/x" = (false, stNeg) ∧
    (10000 : Nat) - 0 > 300 ∧
    fsFind fsX "/autoupdate/x" ≠ none := by
  decide

/-- C2 (amended): reads perform no TTL-based expiry — a FileExists hit
returns the cached record's Exists flag unchanged regardless of age, without
touching the filesystem; negative records are evicted only by the background
loop's sweep once older than 300 seconds; and Stat evicts any cached record
with an empty Name (all negative records) and re-probes the filesystem on
every call, regardless of the TTL. -/
theorem c2_negative_ttl (cfg : Config) (fs fs2 : FS) (now fuel lc : Nat) (st : CacheState)
    (p k : String) (fi : FileInfo) (e : OSErr) :
    (aGet st.fileCache (goToLower (goClean p)) = some fi →
      FileExists cfg fs now fuel st p = (fi.Exists, st) ∧
      FileExists cfg fs now fuel st p = FileExists cfg fs2 now fuel st p) ∧
    (fi.Exists = false → fi.IsDir = false →
      loopCacheItem cfg fs now fuel lc st (k, fi) =
        (if now - fi.CacheTime > 300 then
          { st with fileCache := aDel st.fileCache (goClean k) }
         else st)) ∧
    (inCacheScope cfg (goToLower (goClean p)) = true →
      aGet st.fileCache (goToLower (goClean p)) = some fi → fi.Name = "" →
      fsStat fs p = .error e →
      Stat cfg fs now (fuel + 1) st p =
        ((FileInfo.zero, some (.osErr e)),
         { st with fileCache := aDel st.fileCache (goToLower (goClean p)) })) := by
  refine ⟨?_, ?_, ?_⟩
  · intro hget
    constructor
    · simp [FileExists, hget]
    · simp [FileExists, hget]
  · intro hE hD
    simp [loopCacheItem, hE, hD]
  · intro hsc hget hn hfs
    simp only [Stat_succ, statBody, hsc, if_true, hget]
    simp [hn, statMiss, statMissBody, hfs]

/-- C2 witness: the three behaviors at concrete inputs — a stale negative
hit served from cache, the background sweep evicting it, and Stat's
unconditional eviction of an empty-Name record with a filesystem re-probe. -/
theorem c2_negative_ttl_witness :
    FileExists defaultConfig fsX 10000 5 stNeg "/autoupdate/x" =
      (({ Exists := false, CacheTime := 0 } : FileInfo).Exists, stNeg) ∧
    loopCacheItem defaultConfig fsX 10000 5 0 stNeg
        ("/autoupdate/x", { Exists := false, CacheTime := 0 }) =
      (if 10000 - ({ Exists := false, CacheTime := 0 } : FileInfo).CacheTime > 300 then
        { stNeg with fileCache := aDel stNeg.fileCache (goClean "/autoupdate/x") }
       else stNeg) ∧
    Stat defaultConfig {} 77 (4 + 1) stNeg "/autoupdate/x" =
      ((FileInfo.zero, some (.osErr .notExist)),
       { stNeg with fileCache := aDel stNeg.fileCache (goToLower (goClean "/autoupdate/x")) }) :=
  ⟨((c2_negative_ttl defaultConfig fsX fsX 10000 5 0 stNeg "/autoupdate/x" "/autoupdate/x"
      { Exists := false, CacheTime := 0 } .notExist).1 (by decide)).1,
   (c2_negative_ttl defaultConfig fsX fsX 10000 5 0 stNeg "/autoupdate/x" "/autoupdate/x"
      { Exists := false, CacheTime := 0 } .notExist).2.1 (by decide) (by decide),
   (c2_negative_ttl defaultConfig {} {} 77 4 0 stNeg "/autoupdate/x" "/autoupdate/x"
      { Exists := false, CacheTime := 0 } .notExist).2.2 (by decide) (by decide) (by decide)
      (by rfl)⟩

/-- C1 counterexample: ReadDir on the out-of-scope path /tmp/foo creates an
entry in the companion FileCacheRD listing cache for that key, although the
path fails the cache-root scope check. -/
theorem c1_counterexample :
    inCacheScope defaultConfig "/tmp/foo" = false ∧
    inCacheScope defaultConfig (goToLower (goClean "/tmp/foo")) = false ∧
    aGet (ReadDir defaultConfig fsTmp 100 stEmpty "/tmp/foo").2.fileCacheRD "/tmp/foo" ≠
      none := by
  decide

/-- C1 (amended): for a normalized out-of-scope path, Stat, UpdateFileInfo,
UpdateDirectoryContents and FileExists never create a cache entry (Stat,
UpdateFileInfo and FileExists leave the state unchanged, the refresh helper
only drops the companion listing entry), and ReadDir leaves FileCache
untouched — but ReadDir always stores the fresh listing in FileCacheRD,
out-of-scope keys included. -/
theorem c1_scope_writes (cfg : Config) (fs : FS) (now : Nat) (p : String)
    (hc : goClean p = p) (hl : goToLower p = p)
    (hsc : inCacheScope cfg p = false) :
    (∀ fuel st, (Stat cfg fs now fuel st p).2 = st) ∧
    (∀ fuel st, UpdateDirectoryContents cfg fs now (fuel + 1) st p =
      { st with fileCacheRD := aDel st.fileCacheRD p }) ∧
    (∀ fuel st, UpdateFileInfo cfg fs now fuel st p = st) ∧
    (∀ fuel st, aGet st.fileCache p = none → (FileExists cfg fs now fuel st p).2 = st) ∧
    (∀ st, (ReadDir cfg fs now st p).2.fileCache = st.fileCache) ∧
    (∀ st names infos, fsChildNames fs p = .ok names → entryInfos fs p names = .ok infos →
      aGet (ReadDir cfg fs now st p).2.fileCacheRD p =
        some { FileInfoRD := infos, CacheTime := now }) := by
  have hstatA : ∀ fuel st, (Stat cfg fs now fuel st p).2 = st := by
    intro fuel st
    cases fuel with
    | zero => rfl
    | succ n =>
      simp only [Stat_succ, statBody, hc, hl, hsc]
      simp only [Bool.false_eq_true, if_false]
      simp only [statMiss, statMissBody]
      rcases hfs : fsStat fs p with e | s
      · simp [hfs]
      · simp [hfs, hc, hl, hsc]
  have hufi : ∀ fuel st, UpdateFileInfo cfg fs now fuel st p = st := by
    intro fuel st
    simp [UpdateFileInfo, hc, hl, hsc]
  refine ⟨hstatA, ?_, hufi, ?_, ?_, ?_⟩
  · intro fuel st
    simp [UDC_succ, udcBody, hc, hl, hsc]
  · intro fuel st hget
    simp only [FileExists, hc, hl, hget]
    rcases hstat : Stat cfg fs now fuel st p with ⟨⟨fi, oe⟩, st2⟩
    have hst2 : st2 = st := by
      have := hstatA fuel st
      rw [hstat] at this
      exact this
    rcases oe with _ | ge
    · simp only [hstat]
      rw [hst2]
      exact hufi fuel st
    · rcases ge with e | msg
      · rcases e with _ | _ | _
        · simp [hstat, hc, hl, hsc, hst2]
        · simp [hstat, hst2]
        · simp [hstat, hst2]
      · simp [hstat, hst2]
  · intro st
    simp only [ReadDir, hc, hl]
    have hdisk : ∀ st1 : CacheState, (readDirDisk cfg fs now st1 p p).2.fileCache = st1.fileCache := by
      intro st1
      simp only [readDirDisk]
      rcases hcn2 : fsChildNames fs p with e | names
      · simp [hcn2]
      · simp only [hcn2]
        rcases hei2 : entryInfos fs p names with e | infos
        · simp [hei2]
        · simp [hei2, hsc]
    rcases hrd : aGet st.fileCacheRD p with _ | rd
    · exact hdisk st
    · simp only [hsc, Bool.false_eq_true, if_false]
      exact hdisk st
  · intro st names infos hcn hei
    simp only [ReadDir, hc, hl]
    have hdisk : ∀ st1 : CacheState,
        aGet (readDirDisk cfg fs now st1 p p).2.fileCacheRD p =
          some { FileInfoRD := infos, CacheTime := now } := by
      intro st1
      simp only [readDirDisk, hcn, hei]
      simp [hsc, aGet_aSet_self]
    rcases hrd : aGet st.fileCacheRD p with _ | rd
    · exact hdisk st
    · simp only [hsc, Bool.false_eq_true, if_false]
      exact hdisk st

/-- C1 witness: the amended behavior at the concrete out-of-scope path
/tmp/foo — Stat and FileExists leave the cache unchanged, the refresh helper
only drops the listing entry, and ReadDir stores the listing in FileCacheRD. -/
theorem c1_scope_writes_witness :
    (Stat defaultConfig fsTmp 100 5 stEmpty "/tmp/foo").2 = stEmpty ∧
    UpdateDirectoryContents defaultConfig fsTmp 100 (4 + 1) stEmpty "/tmp/foo" =
      { stEmpty with fileCacheRD := aDel stEmpty.fileCacheRD "/tmp/foo" } ∧
    UpdateFileInfo defaultConfig fsTmp 100 5 stEmpty "/tmp/foo" = stEmpty ∧
    (FileExists defaultConfig fsTmp 100 5 stEmpty "/tmp/foo").2 = stEmpty ∧
    (ReadDir defaultConfig fsTmp 100 stEmpty "/tmp/foo").2.fileCache = stEmpty.fileCache :=
  ⟨(c1_scope_writes defaultConfig fsTmp 100 "/tmp/foo" (by decide) (by decide) (by decide)).1
      5 stEmpty,
   (c1_scope_writes defaultConfig fsTmp 100 "/tmp/foo" (by decide) (by decide) (by decide)).2.1
      4 stEmpty,
   (c1_scope_writes defaultConfig fsTmp 100 "/tmp/foo" (by decide) (by decide) (by decide)).2.2.1
      5 stEmpty,
   (c1_scope_writes defaultConfig fsTmp 100 "/tmp/foo" (by decide) (by decide) (by decide)).2.2.2.1
      5 stEmpty (by decide),
   (c1_scope_writes defaultConfig fsTmp 100 "/tmp/foo" (by decide) (by decide) (by decide)).2.2.2.2.1
      stEmpty⟩

/-- C3 counterexample: when the parent directory /data is absent from the
cache, updateCacheWithNewFile does not leave it absent — the else branch
re-enumerates the directory through UpdateDirectoryContents and creates a
cache entry for it, contradicting the claim that creation then does nothing
to the parent's entry. -/
theorem c3_counterexample :
    aGet stEmpty.fileCache (goToLower (goClean "/data")) = none ∧
    aGet (V0.updateCacheWithNewFile fsData 5 stEmpty "/data" "new.txt").fileCache
      (goToLower (goClean "/data")) ≠ none := by
  decide

/-- C3 (amended): with the parent cached as an existing directory,
updateCacheWithNewFile skips names already present under case-insensitive
comparison, and otherwise appends the name, re-sorts the children
case-insensitively and re-stores the record; when the parent's record is
absent from the cache, it refreshes the parent wholesale through
UpdateDirectoryContents instead of doing nothing. -/
theorem c3_update_cache_new_file (fs : FS) (fuel : Nat) (st : CacheState)
    (dirName fileName : String) :
    (∀ dirInfo : FileInfo, aGet st.fileCache (goToLower (goClean dirName)) = some dirInfo →
      dirInfo.Exists = true → dirInfo.IsDir = true →
      ((dirInfo.Contents.any (fun a => goToLower a == goToLower fileName) = true →
          V0.updateCacheWithNewFile fs fuel st dirName fileName = st) ∧
       (dirInfo.Contents.any (fun a => goToLower a == goToLower fileName) = false →
          V0.updateCacheWithNewFile fs fuel st dirName fileName =
            { st with fileCache := aSet st.fileCache (goToLower (goClean dirName)) ({ dirInfo with Contents := sortLower (dirInfo.Contents ++ [fileName]) }) }))) ∧
    (aGet st.fileCache (goToLower (goClean dirName)) = none →
      V0.updateCacheWithNewFile fs fuel st dirName fileName =
        V0.UpdateDirectoryContents fs fuel st dirName) := by
  constructor
  · intro dirInfo hget hE hD
    constructor
    · intro hany
      simp [V0.updateCacheWithNewFile, hget, hE, hD, hany]
    · intro hany
      simp [V0.updateCacheWithNewFile, hget, hE, hD, hany]
  · intro hget
    simp [V0.updateCacheWithNewFile, hget]

/-- C3 witness: on the concrete cached directory /data, a case-insensitive
duplicate is skipped, a fresh name is inserted sorted, and with /data absent
the function delegates to the wholesale refresh. -/
theorem c3_update_cache_new_file_witness :
    V0.updateCacheWithNewFile fsData 5 stData "/data" "d.TXT" = stData ∧
    V0.updateCacheWithNewFile fsData 5 stData "/data" "a.txt" =
      { stData with fileCache := aSet stData.fileCache (goToLower (goClean "/data")) ({ (⟨true, 0, 0, 0, true, ["b.txt", "D.txt"], "data", 0⟩ : FileInfo) with Contents := sortLower (["b.txt", "D.txt"] ++ ["a.txt"]) }) } ∧
    V0.updateCacheWithNewFile fsData 5 stEmpty "/data" "new.txt" =
      V0.UpdateDirectoryContents fsData 5 stEmpty "/data" :=
  ⟨((c3_update_cache_new_file fsData 5 stData "/data" "d.TXT").1
      ⟨true, 0, 0, 0, true, ["b.txt", "D.txt"], "data", 0⟩ (by decide) (by decide)
      (by decide)).1 (by decide),
   ((c3_update_cache_new_file fsData 5 stData "/data" "a.txt").1
      ⟨true, 0, 0, 0, true, ["b.txt", "D.txt"], "data", 0⟩ (by decide) (by decide)
      (by decide)).2 (by decide),
   (c3_update_cache_new_file fsData 5 stEmpty "/data" "new.txt").2 (by decide)⟩

/-- C7 counterexample: with a permission error on stat of the source,
CopyDirFilesGlob returns the fresh generic error "source is not a directory
or does not exist" instead of the underlying permission error, so the caller
cannot distinguish the failure kinds. -/
theorem c7_counterexample :
    (CopyDirFilesGlob defaultConfig fsPerm 0 5 stEmpty "/s" "/d" "*").1 =
      some (.errorf ("source is not a directory or does not exist")) ∧
    (CopyDirFilesGlob defaultConfig fsPerm 0 5 stEmpty "/s" "/d" "*").1 ≠
      some (.osErr .permission) ∧
    fsStat fsPerm "/s" = .error .permission :=
  ⟨by decide, by decide, rfl⟩

/-- C7 (amended): Stat on a cache miss, Delete, and CopyDir propagate the
underlying OS error verbatim, but CopyDirFilesGlob replaces any error of its
source Stat with the fresh error "source is not a directory or does not
exist". -/
theorem c7_error_propagation :
    (∀ (cfg : Config) (fs : FS) (now fuel : Nat) (st : CacheState) (p : String) (e : OSErr),
      aGet st.fileCache (goToLower (goClean p)) = none →
      fsStat fs p = .error e →
      (Stat cfg fs now (fuel + 1) st p).1.2 = some (.osErr e)) ∧
    (∀ (cfg : Config) (fs : FS) (now fuel : Nat) (st : CacheState) (name : String) (e : OSErr),
      fsRemove fs name = .error e →
      (Delete cfg fs now fuel st name).1 = some (.osErr e)) ∧
    (∀ (cfg : Config) (now fuel : Nat) (st : CacheState) (fs : FS) (src dst : String)
        (e : GoError),
      (Stat cfg fs now fuel
          (if aHas st.fileCache (goToLower (goClean src)) = false then
            (ListFS cfg fs now fuel st (goToLower (goClean src))).2
          else st)
          (goClean src)).1.2 = some e →
      (CopyDir cfg now (fuel + 1) st fs src dst).1 = some e) ∧
    (∀ (cfg : Config) (fs : FS) (now fuel : Nat) (st : CacheState) (src dst pat : String)
        (e : GoError),
      (Stat cfg fs now fuel st (goClean src)).1.2 = some e →
      (CopyDirFilesGlob cfg fs now fuel st src dst pat).1 =
        some (.errorf ("source is not a directory or does not exist"))) := by
  refine ⟨?_, ?_, ?_, ?_⟩
  · intro cfg fs now fuel st p e hget hfs
    rw [Stat_missing cfg fs now fuel st p e hget hfs]
  · intro cfg fs now fuel st name e hrem
    simp [Delete, hrem]
  · intro cfg now fuel st fs src dst e hstat
    rcases hs : Stat cfg fs now fuel
        (if aHas st.fileCache (goToLower (goClean src)) = false then
          (ListFS cfg fs now fuel st (goToLower (goClean src))).2
        else st) (goClean src) with ⟨⟨fi, oe⟩, st2⟩
    rw [hs] at hstat
    simp only at hstat
    subst hstat
    simp [CopyDir, hs]
  · intro cfg fs now fuel st src dst pat e hstat
    rcases hs : Stat cfg fs now fuel st (goClean src) with ⟨⟨fi, oe⟩, st2⟩
    rw [hs] at hstat
    simp only at hstat
    subst hstat
    simp [CopyDirFilesGlob, hs]

/-- C7 witness: the four behaviors at concrete inputs — verbatim propagation
of a permission error by Stat, of a not-exist error by Delete and CopyDir,
and the generic replacement by CopyDirFilesGlob. -/
theorem c7_error_propagation_witness :
    (Stat defaultConfig fsPerm 0 (4 + 1) stEmpty "/s").1.2 =
      some (.osErr .permission) ∧
    (Delete defaultConfig {} 0 5 stEmpty "/q").1 = some (.osErr .notExist) ∧
    (CopyDir defaultConfig 0 (4 + 1) stEmpty fsPerm "/s" "/d").1 =
      some (.osErr .permission) ∧
    (CopyDirFilesGlob defaultConfig fsPerm 0 4 stEmpty "/s" "/d" "*").1 =
      some (.errorf ("source is not a directory or does not exist")) :=
  ⟨c7_error_propagation.1 defaultConfig fsPerm 0 4 stEmpty "/s" .permission (by decide)
      (by rfl),
   c7_error_propagation.2.1 defaultConfig {} 0 5 stEmpty "/q" .notExist (by rfl),
   c7_error_propagation.2.2.1 defaultConfig 0 4 stEmpty fsPerm "/s" "/d"
      (.osErr .permission) (by decide),
   c7_error_propagation.2.2.2 defaultConfig fsPerm 0 4 stEmpty "/s" "/d" "*"
      (.osErr .permission) (by decide)⟩

/-- C5 counterexample: when Append opens a fresh handle and the write itself
fails, the handle is left registered with no idle timer armed, so a lease can
exist with no two-minute timer and such a handle is never reclaimed. -/
theorem c5_counterexample :
    (Append defaultConfig fsAppendFail 50 5 stEmpty "/autoupdate/a.txt" 4).1 =
      some (.osErr .generic) ∧
    "/autoupdate/a.txt" ∈
      (Append defaultConfig fsAppendFail 50 5 stEmpty "/autoupdate/a.txt" 4).2.1.fileHandles ∧
    (Append defaultConfig fsAppendFail 50 5 stEmpty "/autoupdate/a.txt" 4).2.1.fileTimers =
      [] := by
  decide

/-- C5 (amended): every lease created by a successful OpenFile, and every
lease touched by a successful Append on an already-registered handle, carries
a two-minute idle timer (deadline now plus 120 seconds) re-armed by that
activity; the expiry event closes the handle and removes handle and timer;
and the every-lease-has-a-timer invariant is preserved by CloseFile, by
successful OpenFile and by successful Append — but not by an Append whose
fresh-handle write fails, which leaves a registered handle with no timer. -/
theorem c5_idle_timers (cfg : Config) (fs : FS) (now fuel : Nat) (st : CacheState)
    (name : String) (hc : goClean name = name) (hl : goToLower name = name) :
    (∀ flag perm fs1, fsOpenFile fs name flag perm now = .ok fs1 →
      ((OpenFile cfg fs now fuel st name flag perm).1 = none ∧
       name ∈ (OpenFile cfg fs now fuel st name flag perm).2.1.fileHandles ∧
       aGet (OpenFile cfg fs now fuel st name flag perm).2.1.fileTimers name =
         some (now + 120))) ∧
    (∀ content fs2 w, st.fileHandles.contains name = true →
      fsWrite fs name content now = .ok (fs2, w) →
      ((Append cfg fs now fuel st name content).1 = none ∧
       name ∈ (Append cfg fs now fuel st name content).2.1.fileHandles ∧
       aGet (Append cfg fs now fuel st name content).2.1.fileTimers name =
         some (now + 120))) ∧
    (∀ d, timersRegistered st → aGet st.fileTimers name = some d → d ≤ now →
      (name ∉ (timerFire cfg fs now fuel st name).fileHandles ∧
       aGet (timerFire cfg fs now fuel st name).fileTimers name = none)) ∧
    (leasesTimed st → leasesTimed (CloseFile cfg fs now fuel st name)) ∧
    (∀ flag perm fs1, fsOpenFile fs name flag perm now = .ok fs1 → leasesTimed st →
      leasesTimed (OpenFile cfg fs now fuel st name flag perm).2.1) ∧
    (∀ content fs2 w, st.fileHandles.contains name = true →
      fsWrite fs name content now = .ok (fs2, w) → leasesTimed st →
      leasesTimed (Append cfg fs now fuel st name content).2.1) := by
  have hCloseTimed : leasesTimed st → leasesTimed (CloseFile cfg fs now fuel st name) := by
    intro hLT h hmem
    rw [CloseFile_handles] at hmem
    rw [CloseFile_timers]
    have hno : ¬(h ∈ st.fileHandles ∧ strStarts h (goToLower (goClean name)) = true) := by
      rintro ⟨_, hb⟩
      rw [hmem.2] at hb
      cases hb
    rw [if_neg hno]
    exact hLT h hmem.1
  have hOpenState : ∀ flag perm fs1, fsOpenFile fs name flag perm now = .ok fs1 →
      sameHT (OpenFile cfg fs now fuel st name flag perm).2.1
        (resetTimer now
          ({ CloseFile cfg fs now fuel st name with
              fileHandles := name ::
                (CloseFile cfg fs now fuel st name).fileHandles.filter
                  (fun h => h != name) }) name) := by
    intro flag perm fs1 hOpen
    simp only [OpenFile, hc, hl, hOpen]
    split
    · exact sameHT_trans ((core_ht cfg fs1 now fuel).2.2 _ _)
        (sameHT_trans (UpdateFileInfo_ht cfg fs1 now fuel _ name) ⟨rfl, rfl⟩)
    · exact ⟨rfl, rfl⟩
  refine ⟨?_, ?_, ?_, hCloseTimed, ?_, ?_⟩
  · intro flag perm fs1 hOpen
    refine ⟨?_, ?_, ?_⟩
    · simp only [OpenFile, hc, hl, hOpen]
      split
      · rfl
      · rfl
    · rw [(hOpenState flag perm fs1 hOpen).1, resetTimer_handles]
      exact List.mem_cons_self _ _
    · rw [(hOpenState flag perm fs1 hOpen).2]
      have := resetTimer_self now
          ({ CloseFile cfg fs now fuel st name with
              fileHandles := name ::
                (CloseFile cfg fs now fuel st name).fileHandles.filter
                  (fun h => h != name) }) name
      rw [hc, hl] at this
      exact this
  · intro content fs2 w hHas hw
    have hApp : Append cfg fs now fuel st name content =
        (none,
         UpdateFileInfoWithSize cfg fs2 now fuel
           (if aHas (resetTimer now st name).fileCache name = false then
             UpdateFileInfo cfg fs2 now fuel (resetTimer now st name) name
           else resetTimer now st name) name (w : Int),
         fs2) := by
      simp only [Append, hc, hl, hHas, if_true, hw]
    refine ⟨?_, ?_, ?_⟩
    · rw [hApp]
    · rw [hApp]
      simp only []
      rw [(UFIWS_ht cfg fs2 now fuel _ name (w : Int)).1]
      have hh : ∀ s1 : CacheState,
          (if aHas (resetTimer now st name).fileCache name = false then
            UpdateFileInfo cfg fs2 now fuel (resetTimer now st name) name
          else resetTimer now st name).fileHandles = (resetTimer now st name).fileHandles := by
        intro s1
        split
        · exact (UpdateFileInfo_ht cfg fs2 now fuel _ name).1
        · rfl
      rw [hh st, resetTimer_handles]
      exact List.mem_of_elem_eq_true hHas
    · rw [hApp]
      simp only []
      rw [(UFIWS_ht cfg fs2 now fuel _ name (w : Int)).2]
      have hh : (if aHas (resetTimer now st name).fileCache name = false then
            UpdateFileInfo cfg fs2 now fuel (resetTimer now st name) name
          else resetTimer now st name).fileTimers = (resetTimer now st name).fileTimers := by
        split
        · exact (UpdateFileInfo_ht cfg fs2 now fuel _ name).2
        · rfl
      rw [hh]
      have := resetTimer_self now st name
      rw [hc, hl] at this
      exact this
  · intro d hT hd hdle
    have hfire : timerFire cfg fs now fuel st name = CloseFile cfg fs now fuel st name := by
      simp [timerFire, hd, hdle]
    have hmemH : name ∈ st.fileHandles :=
      timersRegistered_mem st hT name (by simp [hd])
    constructor
    · rw [hfire]
      intro hmem
      rw [CloseFile_handles] at hmem
      rw [hc, hl, strStarts_refl] at hmem
      cases hmem.2
    · rw [hfire, CloseFile_timers, hc, hl]
      simp [hmemH, strStarts_refl]
  · intro flag perm fs1 hOpen hLT
    intro h hmem
    rw [(hOpenState flag perm fs1 hOpen).1, resetTimer_handles] at hmem
    rw [(hOpenState flag perm fs1 hOpen).2]
    rcases List.mem_cons.mp hmem with hh | hh
    · subst hh
      have hself := resetTimer_self now
          ({ CloseFile cfg fs now fuel st h with
              fileHandles := h ::
                (CloseFile cfg fs now fuel st h).fileHandles.filter
                  (fun x => x != h) }) h
      rw [hc, hl] at hself
      rw [hself]
      rfl
    · have hne2 : h ≠ name := by
        have hf := List.mem_filter.mp hh
        simpa using hf.2
      have hmemC : h ∈ (CloseFile cfg fs now fuel st name).fileHandles :=
        (List.mem_filter.mp hh).1
      have hne3 : h ≠ goToLower (goClean name) := by
        rw [hc, hl]
        exact hne2
      rw [resetTimer_ne now _ name h hne3]
      have hproj : ({ CloseFile cfg fs now fuel st name with
          fileHandles := name ::
            (CloseFile cfg fs now fuel st name).fileHandles.filter
              (fun x => x != name) } : CacheState).fileTimers =
          (CloseFile cfg fs now fuel st name).fileTimers := rfl
      rw [hproj, CloseFile_timers]
      have hmemS := (CloseFile_handles cfg fs now fuel st name h).mp hmemC
      have hno : ¬(h ∈ st.fileHandles ∧ strStarts h (goToLower (goClean name)) = true) := by
        rintro ⟨_, hb⟩
        rw [hmemS.2] at hb
        cases hb
      rw [if_neg hno]
      exact hLT h hmemS.1
  · intro content fs2 w hHas hw hLT
    have hApp : Append cfg fs now fuel st name content =
        (none,
         UpdateFileInfoWithSize cfg fs2 now fuel
           (if aHas (resetTimer now st name).fileCache name = false then
             UpdateFileInfo cfg fs2 now fuel (resetTimer now st name) name
           else resetTimer now st name) name (w : Int),
         fs2) := by
      simp only [Append, hc, hl, hHas, if_true, hw]
    intro h hmem
    rw [hApp] at hmem ⊢
    simp only [] at hmem ⊢
    rw [(UFIWS_ht cfg fs2 now fuel _ name (w : Int)).1] at hmem
    rw [(UFIWS_ht cfg fs2 now fuel _ name (w : Int)).2]
    have hhH : (if aHas (resetTimer now st name).fileCache name = false then
          UpdateFileInfo cfg fs2 now fuel (resetTimer now st name) name
        else resetTimer now st name).fileHandles = (resetTimer now st name).fileHandles := by
      split
      · exact (UpdateFileInfo_ht cfg fs2 now fuel _ name).1
      · rfl
    have hhT : (if aHas (resetTimer now st name).fileCache name = false then
          UpdateFileInfo cfg fs2 now fuel (resetTimer now st name) name
        else resetTimer now st name).fileTimers = (resetTimer now st name).fileTimers := by
      split
      · exact (UpdateFileInfo_ht cfg fs2 now fuel _ name).2
      · rfl
    rw [hhH, resetTimer_handles] at hmem
    rw [hhT]
    by_cases hhn : h = name
    · subst hhn
      have hself := resetTimer_self now st h
      rw [hc, hl] at hself
      rw [hself]
      rfl
    · have hne3 : h ≠ goToLower (goClean name) := by
        rw [hc, hl]
        exact hhn
      rw [resetTimer_ne now st name h hne3]
      exact hLT h hmem

/-- C5 witness: on the concrete tree, a successful open arms a 220-second
deadline (100 plus 120), a successful append on a registered handle re-arms
it, a due timer's expiry closes the handle and removes the timer, and
CloseFile preserves the every-lease-has-a-timer invariant. -/
theorem c5_idle_timers_witness :
    ((OpenFile defaultConfig fsTree 100 5 stEmpty "/autoupdate/d/f.txt" 0 420).1 = none ∧
     "/autoupdate/d/f.txt" ∈
       (OpenFile defaultConfig fsTree 100 5 stEmpty "/autoupdate/d/f.txt" 0 420).2.1.fileHandles ∧
     aGet (OpenFile defaultConfig fsTree 100 5 stEmpty "/autoupdate/d/f.txt" 0 420).2.1.fileTimers
       "/autoupdate/d/f.txt" = some (100 + 120)) ∧
    ((Append defaultConfig fsTree 100 5 stLease "/autoupdate/d/f.txt" 4).1 = none ∧
     "/autoupdate/d/f.txt" ∈
       (Append defaultConfig fsTree 100 5 stLease "/autoupdate/d/f.txt" 4).2.1.fileHandles ∧
     aGet (Append defaultConfig fsTree 100 5 stLease "/autoupdate/d/f.txt" 4).2.1.fileTimers
       "/autoupdate/d/f.txt" = some (100 + 120)) ∧
    ("/autoupdate/d/f.txt" ∉
       (timerFire defaultConfig fsTree 100 5 stLease "/autoupdate/d/f.txt").fileHandles ∧
     aGet (timerFire defaultConfig fsTree 100 5 stLease "/autoupdate/d/f.txt").fileTimers
       "/autoupdate/d/f.txt" = none) ∧
    leasesTimed (CloseFile defaultConfig fsTree 100 5 stLease "/autoupdate/d/f.txt") :=
  ⟨(c5_idle_timers defaultConfig fsTree 100 5 stEmpty "/autoupdate/d/f.txt" (by decide)
      (by decide)).1 0 420 fsTree (by rfl),
   (c5_idle_timers defaultConfig fsTree 100 5 stLease "/autoupdate/d/f.txt" (by decide)
      (by decide)).2.1 4 fsTreeW 4 (by decide) (by rfl),
   (c5_idle_timers defaultConfig fsTree 100 5 stLease "/autoupdate/d/f.txt" (by decide)
      (by decide)).2.2.1 10 (by decide) (by decide) (by decide),
   (c5_idle_timers defaultConfig fsTree 100 5 stLease "/autoupdate/d/f.txt" (by decide)
      (by decide)).2.2.2.1 (by decide)⟩

theorem UDC_refresh (cfg : Config) (fs : FS) (now fuel : Nat) (st : CacheState) (d : String)
    (l : List String) (pfi : FileInfo)
    (hdc : goClean d = d) (hdl : goToLower d = d)
    (hsc : inCacheScope cfg d = true)
    (hcn : fsChildNames fs d = .ok l)
    (hpar : aGet st.fileCache d = some pfi) (hpn : pfi.Name ≠ "") :
    UpdateDirectoryContents cfg fs now (fuel + 1) st d =
      { st with fileCacheRD := aDel st.fileCacheRD d, fileCache := aSet st.fileCache d (dirRecord d l pfi) } := by
  rw [UDC_succ]
  simp only [udcBody, hdc, hdl, hsc]
  have hsc2 : inCacheScope cfg (goToLower (goClean d)) = true := by
    rw [hdc, hdl]
    exact hsc
  have hget3 : aGet ({ st with fileCacheRD := aDel st.fileCacheRD d } : CacheState).fileCache
      (goToLower (goClean d)) = some pfi := by
    rw [hdc, hdl]
    exact hpar
  have hhit := Stat_hit cfg fs now fuel
      ({ st with fileCacheRD := aDel st.fileCacheRD d }) d pfi hsc2 hget3 hpn
  simp only [hcn, hhit, dirRecord]
  simp

/-- C10: when the underlying write fails, WriteFile still mutates the cache
before returning the error verbatim — the file's record is refreshed to a
negative entry (the file does not exist) and the parent directory's cached
contents are re-enumerated from the filesystem. -/
theorem c10_writefile_error_cache (cfg : Config) (fs : FS) (now fuel : Nat) (st : CacheState)
    (name : String) (content perm : Nat) (e : OSErr) (l : List String) (pfi : FileInfo)
    (hc : goClean name = name) (hl : goToLower name = name)
    (hdc : goClean (goDir name) = goDir name) (hdl : goToLower (goDir name) = goDir name)
    (hne : goDir name ≠ name)
    (hH : ∀ h ∈ st.fileHandles, strStarts h name = false)
    (hsc : inCacheScope cfg name = true)
    (hwf : fsWriteFile fs name content perm now = .error e)
    (hstat : fsStat fs name = .error .notExist)
    (hscp : inCacheScope cfg (goDir name) = true)
    (hcn : fsChildNames fs (goDir name) = .ok l)
    (hpar : aGet st.fileCache (goDir name) = some pfi) (hpn : pfi.Name ≠ "") :
    (WriteFile cfg fs now (fuel + 1) st name content perm).1 = some (.osErr e) ∧
    aGet (WriteFile cfg fs now (fuel + 1) st name content perm).2.1.fileCache name =
      some (negRecord now) ∧
    (∃ fi : FileInfo,
      aGet (WriteFile cfg fs now (fuel + 1) st name content perm).2.1.fileCache
        (goDir name) = some fi ∧ fi.Contents = l ∧ fi.IsDir = true) := by
  have hH2 : ∀ h ∈ st.fileHandles, strStarts h (goToLower (goClean name)) = false := by
    rw [hc, hl]
    exact hH
  have hufi : UpdateFileInfo cfg fs now (fuel + 1) st name =
      { st with fileCache := aSet st.fileCache name (negRecord now) } := by
    simp only [UpdateFileInfo, hc, hl, hsc]
    simp [hstat, negRecord]
  have hpar2 : aGet ({ st with fileCache := aSet st.fileCache name (negRecord now) } :
      CacheState).fileCache (goDir name) = some pfi := by
    show aGet (aSet st.fileCache name _) (goDir name) = some pfi
    rw [aGet_aSet_ne st.fileCache name (goDir name) _ hne]
    exact hpar
  have hudc := UDC_refresh cfg fs now fuel
      ({ st with fileCache := aSet st.fileCache name (negRecord now) })
      (goDir name) l pfi hdc hdl hscp hcn hpar2 hpn
  have hwr : WriteFile cfg fs now (fuel + 1) st name content perm =
      (some (.osErr e),
       UpdateDirectoryContents cfg fs now (fuel + 1)
         (UpdateFileInfo cfg fs now (fuel + 1) (CloseFile cfg fs now (fuel + 1) st name) name)
         (goDir name),
       fs) := by
    simp only [WriteFile, hc, hl, hwf]
  rw [hwr, CloseFile_no_match cfg fs now (fuel + 1) st name hH2, hufi, hudc]
  refine ⟨rfl, ?_, ?_⟩
  · show aGet (aSet (aSet st.fileCache name _) (goDir name) _) name = _
    rw [aGet_aSet_ne _ (goDir name) name _ (fun hq => hne hq.symm)]
    exact aGet_aSet_self st.fileCache name _
  · refine ⟨dirRecord (goDir name) l pfi, ?_, rfl, rfl⟩
    exact aGet_aSet_self _ (goDir name) _

/-- C10 witness: a failing write to /autoupdate/d/w.txt returns the error
while installing a negative record for the file and refreshing the parent's
cached contents. -/
theorem c10_writefile_error_cache_witness :
    (WriteFile defaultConfig fsWf 100 (4 + 1) stTree "/autoupdate/d/w.txt" 4 420).1 =
      some (.osErr .generic) ∧
    aGet (WriteFile defaultConfig fsWf 100 (4 + 1) stTree "/autoupdate/d/w.txt" 4 420).2.1.fileCache
      "/autoupdate/d/w.txt" = some (negRecord 100) ∧
    (∃ fi : FileInfo,
      aGet (WriteFile defaultConfig fsWf 100 (4 + 1) stTree "/autoupdate/d/w.txt" 4 420).2.1.fileCache
        (goDir "/autoupdate/d/w.txt") = some fi ∧ fi.Contents = ["g.txt"] ∧ fi.IsDir = true) :=
  c10_writefile_error_cache defaultConfig fsWf 100 4 stTree "/autoupdate/d/w.txt" 4 420 .generic
    ["g.txt"] ⟨true, 0, 0, 0, true, ["f.txt", "g.txt"], "d", 0⟩
    (by decide) (by decide) (by decide) (by decide) (by decide) (by decide) (by decide)
    (by rfl) (by rfl) (by decide) (by rfl) (by decide) (by decide)

/-- C4: after a successful Delete of a cached path whose parent directory is
cached and in scope, the parent's cached child list is re-enumerated from
the filesystem and no longer contains the deleted basename (in any case
variant), and a subsequent Stat of the path misses the cache, re-probes the
filesystem and reports a record with Exists false together with the
not-exist error. -/
theorem c4_delete_coherence (cfg : Config) (fs fs2 : FS) (now now2 fuel fuel2 : Nat)
    (st : CacheState) (name : String) (l : List String) (pfi : FileInfo)
    (hc : goClean name = name) (hl : goToLower name = name)
    (hdc : goClean (goDir name) = goDir name) (hdl : goToLower (goDir name) = goDir name)
    (hne : goDir name ≠ name)
    (hH : ∀ h ∈ st.fileHandles, strStarts h name = false)
    (hrem : fsRemove fs name = .ok fs2)
    (hscp : inCacheScope cfg (goDir name) = true)
    (hcn : fsChildNames fs2 (goDir name) = .ok l)
    (hbase : ∀ x ∈ l, goToLower x ≠ goToLower (goBase name))
    (hpar : aGet st.fileCache (goDir name) = some pfi) (hpn : pfi.Name ≠ "")
    (hstat2 : fsStat fs2 name = .error .notExist) :
    (Delete cfg fs now (fuel + 1) st name).1 = none ∧
    (Delete cfg fs now (fuel + 1) st name).2.2 = fs2 ∧
    (∃ fi : FileInfo,
      aGet (Delete cfg fs now (fuel + 1) st name).2.1.fileCache (goDir name) = some fi ∧
      fi.IsDir = true ∧ ∀ x ∈ fi.Contents, goToLower x ≠ goToLower (goBase name)) ∧
    (Stat cfg fs2 now2 (fuel2 + 1) (Delete cfg fs now (fuel + 1) st name).2.1 name).1 =
      (FileInfo.zero, some (.osErr .notExist)) := by
  have hH2 : ∀ h ∈ st.fileHandles, strStarts h (goToLower (goClean name)) = false := by
    rw [hc, hl]
    exact hH
  have hpar2 : aGet ({ st with fileCache := aDel st.fileCache name } : CacheState).fileCache
      (goDir name) = some pfi := by
    show aGet (aDel st.fileCache name) (goDir name) = some pfi
    rw [aGet_aDel_ne st.fileCache name (goDir name) hne]
    exact hpar
  have hudc := UDC_refresh cfg fs2 now fuel
      ({ st with fileCache := aDel st.fileCache name }) (goDir name) l pfi
      hdc hdl hscp hcn hpar2 hpn
  have hdel : Delete cfg fs now (fuel + 1) st name =
      (none,
       UpdateDirectoryContents cfg fs2 now (fuel + 1)
         ({ CloseFile cfg fs now (fuel + 1) st name with
            fileCache := aDel (CloseFile cfg fs now (fuel + 1) st name).fileCache name })
         (goDir name),
       fs2) := by
    simp only [Delete, hc, hl, hrem]
  rw [CloseFile_no_match cfg fs now (fuel + 1) st name hH2] at hdel
  rw [hdel, hudc]
  have hkey : aGet (aSet (aDel st.fileCache name) (goDir name)
      (dirRecord (goDir name) l pfi)) name = none := by
    rw [aGet_aSet_ne _ (goDir name) name _ (fun hq => hne hq.symm)]
    exact aGet_aDel_self st.fileCache name
  refine ⟨rfl, rfl, ?_, ?_⟩
  · refine ⟨dirRecord (goDir name) l pfi, aGet_aSet_self _ (goDir name) _, rfl, ?_⟩
    intro x hx
    exact hbase x hx
  · rw [Stat_missing cfg fs2 now2 fuel2 _ name .notExist ?_ hstat2]
    rw [hc, hl]
    exact hkey

/-- C4 witness: on the concrete tree, deleting /autoupdate/d/f.txt succeeds,
the parent's refreshed cached contents hold only g.txt, and a subsequent
Stat reports a record with Exists false and the not-exist error. -/
theorem c4_delete_coherence_witness :
    (Delete defaultConfig fsTree 100 (4 + 1) stTree "/autoupdate/d/f.txt").1 = none ∧
    (∃ fi : FileInfo,
      aGet (Delete defaultConfig fsTree 100 (4 + 1) stTree "/autoupdate/d/f.txt").2.1.fileCache
        (goDir "/autoupdate/d/f.txt") = some fi ∧
      fi.IsDir = true ∧
      ∀ x ∈ fi.Contents, goToLower x ≠ goToLower (goBase "/autoupdate/d/f.txt")) ∧
    (Stat defaultConfig fsTreeDel 200 (3 + 1)
        (Delete defaultConfig fsTree 100 (4 + 1) stTree "/autoupdate/d/f.txt").2.1
        "/autoupdate/d/f.txt").1 = (FileInfo.zero, some (.osErr .notExist)) :=
  ⟨(c4_delete_coherence defaultConfig fsTree fsTreeDel 100 200 4 3 stTree
      "/autoupdate/d/f.txt" ["g.txt"] ⟨true, 0, 0, 0, true, ["f.txt", "g.txt"], "d", 0⟩
      (by decide) (by decide) (by decide) (by decide) (by decide) (by decide) (by rfl)
      (by decide) (by rfl) (by decide) (by decide) (by decide) (by rfl)).1,
   (c4_delete_coherence defaultConfig fsTree fsTreeDel 100 200 4 3 stTree
      "/autoupdate/d/f.txt" ["g.txt"] ⟨true, 0, 0, 0, true, ["f.txt", "g.txt"], "d", 0⟩
      (by decide) (by decide) (by decide) (by decide) (by decide) (by decide) (by rfl)
      (by decide) (by rfl) (by decide) (by decide) (by decide) (by rfl)).2.2.1,
   (c4_delete_coherence defaultConfig fsTree fsTreeDel 100 200 4 3 stTree
      "/autoupdate/d/f.txt" ["g.txt"] ⟨true, 0, 0, 0, true, ["f.txt", "g.txt"], "d", 0⟩
      (by decide) (by decide) (by decide) (by decide) (by decide) (by decide) (by rfl)
      (by decide) (by rfl) (by decide) (by decide) (by decide) (by rfl)).2.2.2⟩

end GMSFS
